import Mathlib

/-!
Verification of the royalty-distribution, invoicing, validation and
notification logic of the label back-office application.

The Python code is shallowly embedded: Django model rows become Lean
structures, `decimal.Decimal` arithmetic becomes exact arithmetic over `ℚ`
with the explicit `round(x, n)` calls modelled as round-half-even at `n`
decimal places (the `decimal` module default), querysets become lists, and
exceptions become explicit error values.
-/

namespace AppOni

/-- Round-half-even (banker's rounding) of a rational to an integer, the
rounding mode used by Python `decimal` contexts by default. -/
def roundHalfEven (q : ℚ) : ℤ :=
  if q - (⌊q⌋ : ℚ) < 1/2 then ⌊q⌋
  else if 1/2 < q - (⌊q⌋ : ℚ) then ⌊q⌋ + 1
  else if ⌊q⌋ % 2 = 0 then ⌊q⌋ else ⌊q⌋ + 1

/-- Python `round(x, n)` on `Decimal` values: round-half-even at `n`
decimal places. -/
def roundTo (n : ℕ) (q : ℚ) : ℚ := (roundHalfEven (q * 10 ^ n) : ℚ) / 10 ^ n

theorem abs_roundHalfEven_sub_le (q : ℚ) : |(roundHalfEven q : ℚ) - q| ≤ 1/2 := by
  have h0 : (0:ℚ) ≤ q - (⌊q⌋ : ℚ) := by
    have := Int.floor_le q; linarith
  have h1 : q - (⌊q⌋ : ℚ) < 1 := by
    have := Int.lt_floor_add_one q; linarith
  unfold roundHalfEven
  split_ifs with hlt hgt hev
  · rw [abs_sub_comm, abs_of_nonneg (by linarith)]; linarith
  · push_cast
    rw [abs_of_nonneg (by linarith)]
    linarith
  · have : q - (⌊q⌋ : ℚ) = 1/2 := le_antisymm (not_lt.mp hgt) (not_lt.mp hlt)
    rw [abs_sub_comm, abs_of_nonneg (by linarith)]; linarith
  · have : q - (⌊q⌋ : ℚ) = 1/2 := le_antisymm (not_lt.mp hgt) (not_lt.mp hlt)
    push_cast
    rw [abs_of_nonneg (by linarith)]
    linarith

theorem abs_roundTo_sub_le (n : ℕ) (q : ℚ) : |roundTo n q - q| ≤ 1 / (2 * 10 ^ n) := by
  have hpos : (0:ℚ) < 10 ^ n := by positivity
  have h := abs_roundHalfEven_sub_le (q * 10 ^ n)
  have heq : roundTo n q - q = ((roundHalfEven (q * 10 ^ n) : ℚ) - q * 10 ^ n) / 10 ^ n := by
    rw [roundTo]
    field_simp
    ring
  have hsplit : (1:ℚ) / (2 * 10 ^ n) = (1/2) / 10 ^ n := by
    rw [div_div]
  rw [heq, abs_div, abs_of_pos hpos, hsplit]
  gcongr

/-! ## `ReportTempItem.calculate_values_to_distribute` (src financial models)

The dict returned by the method is modelled as the structure `DistValues`,
one field per key. -/

/-- The dict returned by `ReportTempItem.calculate_values_to_distribute`. -/
structure DistValues where
  provider_fees : ℚ
  holder_item_share : ℚ
  value_total : ℚ
  value_total_to_distribute : ℚ
  value_holder : ℚ
  value_holder_converted : ℚ
  rate_distributor : ℚ
  value_distributor : ℚ
  transfer_dist_share : ℚ
  value_converted_distributor : ℚ
  tax_retention : ℚ
  deriving Repr, DecidableEq

/-- `ReportTempItem.calculate_values_to_distribute`.  `value` is `self.value`;
the other parameters are the method parameters in source order.  `Decimal`
arithmetic is exact over `ℚ`; each `round(x, 5)` becomes `roundTo 5`. -/
def calculate_values_to_distribute (value currency_price holder_share holder_item_share
    provider_share tax_retention transfer_dist_share : ℚ) : DistValues :=
  let tax_retention := tax_retention * holder_item_share / 100
  let value_total := value * ((100 - provider_share) / 100)
  let holder_item_value := holder_item_share * value / 100
  let provider_fee := holder_item_value * (provider_share / 100)
  let value_total_to_distribute := holder_item_value - provider_fee
  let value_transfer_dist := ((100 - holder_share) / 100) * (transfer_dist_share / 100) * value_total
  let value_holder :=
    if holder_item_value = 0 ∧ transfer_dist_share > 0 then value_transfer_dist * (-1)
    else roundTo 5 (value_total_to_distribute * (holder_share / 100)) - value_transfer_dist
  let value_distributor :=
    if holder_item_value = 0 ∧ transfer_dist_share > 0 then value_transfer_dist
    else roundTo 5 (value_total_to_distribute - value_holder)
  let transfer_dist_share_final := transfer_dist_share * ((100 - holder_share) / 100)
  { provider_fees := provider_fee
    holder_item_share := holder_item_share
    value_total := holder_item_value
    value_total_to_distribute := value_total_to_distribute
    value_holder := value_holder
    value_holder_converted := roundTo 5 (value_holder * currency_price)
    rate_distributor := 100 - holder_share
    value_distributor := value_distributor
    transfer_dist_share := roundTo 5 transfer_dist_share_final
    value_converted_distributor := roundTo 5 (value_distributor * currency_price)
    tax_retention := tax_retention }

/-- C1: for every report temp item (value `v`) and holder entry,
`value_holder + value_distributor` equals the net amount to distribute for
that holder — `holder_item_value` minus the provider fee, which the returned
dict exposes as `value_total - provider_fees` — up to the 5-decimal-place
rounding applied (error at most `1/200000`); and in the special case where
`holder_item_value = 0` and `transfer_dist_share > 0`, `value_holder` is
minus `value_transfer_dist`, `value_distributor` is plus
`value_transfer_dist`, and the two sum to zero. -/
theorem calculate_values_sum_to_net (value currency_price holder_share holder_item_share
    provider_share tax_retention transfer_dist_share : ℚ) :
    (let d := calculate_values_to_distribute value currency_price holder_share holder_item_share
      provider_share tax_retention transfer_dist_share
    |d.value_holder + d.value_distributor - (d.value_total - d.provider_fees)| ≤ 1 / 200000
    ∧ (holder_item_share * value / 100 = 0 ∧ transfer_dist_share > 0 →
        d.value_holder =
          -(((100 - holder_share) / 100) * (transfer_dist_share / 100) *
            (value * ((100 - provider_share) / 100)))
        ∧ d.value_distributor =
          ((100 - holder_share) / 100) * (transfer_dist_share / 100) *
            (value * ((100 - provider_share) / 100))
        ∧ d.value_holder + d.value_distributor = 0)) := by
  simp only [calculate_values_to_distribute]
  constructor
  · by_cases h : holder_item_share * value / 100 = 0 ∧ transfer_dist_share > 0
    · simp only [if_pos h]
      rw [h.1]
      ring_nf
      norm_num
    · simp only [if_neg h]
      set hiv := holder_item_share * value / 100 with hhiv
      set fee := hiv * (provider_share / 100) with hfee
      set vtd := ((100 - holder_share) / 100) * (transfer_dist_share / 100) *
        (value * ((100 - provider_share) / 100)) with hvtd
      set vh := roundTo 5 ((hiv - fee) * (holder_share / 100)) - vtd with hvh
      have hb := abs_roundTo_sub_le 5 ((hiv - fee) - vh)
      have hre : vh + roundTo 5 (hiv - fee - vh) - (hiv - fee)
          = roundTo 5 ((hiv - fee) - vh) - ((hiv - fee) - vh) := by ring
      rw [hre]
      calc |roundTo 5 ((hiv - fee) - vh) - ((hiv - fee) - vh)| ≤ 1 / (2 * 10 ^ 5) := hb
        _ = 1 / 200000 := by norm_num
  · intro h
    simp only [if_pos h]
    exact ⟨by ring, trivial, by ring⟩

/-- Closed instance of `calculate_values_sum_to_net` at a concrete input
(value 100, currency price 1, holder share 70, item share 50, provider
share 10, tax retention 0, transfer share 0). -/
theorem calculate_values_sum_to_net_inst :
    (let d := calculate_values_to_distribute 100 1 70 50 10 0 0
    |d.value_holder + d.value_distributor - (d.value_total - d.provider_fees)| ≤ 1 / 200000
    ∧ ((50:ℚ) * 100 / 100 = 0 ∧ (0:ℚ) > 0 →
        d.value_holder = -(((100 - 70) / 100) * ((0:ℚ) / 100) * (100 * ((100 - 10) / 100)))
        ∧ d.value_distributor = ((100 - 70) / 100) * ((0:ℚ) / 100) * (100 * ((100 - 10) / 100))
        ∧ d.value_holder + d.value_distributor = 0)) :=
  calculate_values_sum_to_net 100 1 70 50 10 0 0

/-! ## `get_holder` on `ReportTempItemAsset` and `ReportTempItemYoutube` -/

/-- Python exceptions the embedded code can raise.  `nameError` stands for
`UnboundLocalError`, the `NameError` subclass raised on reading a local
variable before assignment. -/
inductive PyExc
  | attributeError
  | multipleObjectsReturned
  | valueError
  | nameError
  deriving Repr, DecidableEq

/-- A transfer-holder row: `ProductHolder`, `AssetHolder` or
`YoutubeAssetHolder`, all subclasses of `BasePercentageHolder`. -/
structure PercentageHolder where
  holder_id : ℕ
  artist_id : ℕ
  artist_name : String
  percentage : ℚ
  ignore_main_holder_share : Bool
  deriving Repr, DecidableEq

/-- `BasePercentageHolder.get_share`: 100 when the row ignores the main
holder share, else the main holder share. -/
def PercentageHolder.get_share (h : PercentageHolder) (main_holder_share : ℚ) : ℚ :=
  if h.ignore_main_holder_share then 100 else main_holder_share

/-- The fields of a `Holder` row used by the distribution code. -/
structure HolderRec where
  id : ℕ
  share : ℚ
  share_youtube : ℚ
  deriving Repr, DecidableEq

/-- An `Asset`, `Product` or `YoutubeAsset` row as `get_holder` sees it: its
main holder and its percentage-holder set. -/
structure CatalogEntry where
  main_holder : HolderRec
  holder_set : List PercentageHolder
  deriving Repr, DecidableEq

/-- One entry of the list of dicts returned by `get_holder`. -/
structure HolderEntry where
  holder_id : ℕ
  artist_id : Option ℕ
  artist_name : Option String
  item_share : ℚ
  share : ℚ
  transfer_dist_share : ℚ
  deriving Repr, DecidableEq

/-- The accumulation loop shared by the `get_holder` overrides: one pass over
the percentage-holder set building the transfer entries and accumulating
`transfer_share` and `transfer_dist_share`. -/
def holderLoop (main_share : ℚ) : List PercentageHolder → List HolderEntry × ℚ × ℚ
  | [] => ([], 0, 0)
  | h :: rest =>
    let head_share := h.get_share main_share
    let r := holderLoop main_share rest
    ({ holder_id := h.holder_id
       artist_id := some h.artist_id
       artist_name := some h.artist_name
       item_share := h.percentage
       share := head_share
       transfer_dist_share := 0 } :: r.1,
     h.percentage + r.2.1,
     (if main_share < head_share then h.percentage else 0) + r.2.2)

/-- The common tail of the `get_holder` overrides: run the loop and append
the main-holder entry, whose `item_share` is 100 minus the accumulated
transfer share. -/
def catalogGetHolder (entry : CatalogEntry) (main_share : ℚ) : List HolderEntry :=
  let r := holderLoop main_share entry.holder_set
  r.1 ++ [{ holder_id := entry.main_holder.id
            artist_id := none
            artist_name := none
            item_share := 100 - r.2.1
            share := main_share
            transfer_dist_share := r.2.2 }]

/-- `ReportTempItemYoutube.get_holder`.  `youtube_asset` is nullable; when it
is `None`, the `self.youtube_asset.main_holder` access raises
`AttributeError`. -/
def youtubeGetHolder (youtube_asset : Option CatalogEntry) :
    Except PyExc (List HolderEntry) :=
  match youtube_asset with
  | none => .error .attributeError
  | some ya => .ok (catalogGetHolder ya ya.main_holder.share_youtube)

/-- `ReportTempItemAsset.get_holder`: iterates `assetholder_set` when
`asset` is present, else `productholder_set` when `product` is present; when
both are `None`, `main_holder` is still `None` at the final
`main_holder.id` access, raising `AttributeError`. -/
def assetGetHolder (asset product : Option CatalogEntry) :
    Except PyExc (List HolderEntry) :=
  match asset with
  | some a => .ok (catalogGetHolder a a.main_holder.share)
  | none =>
    match product with
    | some p => .ok (catalogGetHolder p p.main_holder.share)
    | none => .error .attributeError

theorem holderLoop_item_share_sum (main_share : ℚ) (l : List PercentageHolder) :
    ((holderLoop main_share l).1.map HolderEntry.item_share).sum
      = (holderLoop main_share l).2.1 := by
  induction l with
  | nil => simp [holderLoop]
  | cons h rest ih => simp [holderLoop, ih]

theorem catalogGetHolder_item_share_sum (entry : CatalogEntry) (main_share : ℚ) :
    ((catalogGetHolder entry main_share).map HolderEntry.item_share).sum = 100 := by
  simp [catalogGetHolder, holderLoop_item_share_sum]

/-- C4: whenever `get_holder` returns a list of holder entries — both for
`ReportTempItemAsset` and for `ReportTempItemYoutube` — the `item_share`
values sum to exactly 100: each transfer holder contributes its percentage
and the main holder entry gets 100 minus the transfer holders' total. -/
theorem get_holder_item_shares_sum (asset product youtube_asset : Option CatalogEntry) :
    (∀ hs, assetGetHolder asset product = .ok hs →
      (hs.map HolderEntry.item_share).sum = 100)
    ∧ (∀ hs, youtubeGetHolder youtube_asset = .ok hs →
      (hs.map HolderEntry.item_share).sum = 100) := by
  constructor
  · intro hs h
    match asset, product, h with
    | some a, _, h =>
      simp only [assetGetHolder, Except.ok.injEq] at h
      rw [← h]
      exact catalogGetHolder_item_share_sum a a.main_holder.share
    | none, some p, h =>
      simp only [assetGetHolder, Except.ok.injEq] at h
      rw [← h]
      exact catalogGetHolder_item_share_sum p p.main_holder.share
  · intro hs h
    match youtube_asset, h with
    | some ya, h =>
      simp only [youtubeGetHolder, Except.ok.injEq] at h
      rw [← h]
      exact catalogGetHolder_item_share_sum ya ya.main_holder.share_youtube

/-- Closed instance of `get_holder_item_shares_sum`: an asset with one
transfer holder at 25 percent and a youtube asset with no transfer holders. -/
theorem get_holder_item_shares_sum_inst :
    ((((assetGetHolder
          (some { main_holder := { id := 1, share := 70, share_youtube := 60 }
                  holder_set := [{ holder_id := 2, artist_id := 5, artist_name := "A"
                                   percentage := 25, ignore_main_holder_share := false }] })
          none).toOption.getD []).map HolderEntry.item_share).sum = 100)
    ∧ ((((youtubeGetHolder
          (some { main_holder := { id := 1, share := 70, share_youtube := 60 }
                  holder_set := [] })).toOption.getD []).map HolderEntry.item_share).sum
        = 100) :=
  ⟨(get_holder_item_shares_sum
      (some { main_holder := { id := 1, share := 70, share_youtube := 60 }
              holder_set := [{ holder_id := 2, artist_id := 5, artist_name := "A"
                               percentage := 25, ignore_main_holder_share := false }] })
      none none).1 _ rfl,
   (get_holder_item_shares_sum none none
      (some { main_holder := { id := 1, share := 70, share_youtube := 60 }
              holder_set := [] })).2 _ rfl⟩

/-! ## `CopyrightInlineFormset.clean` (admin forms module)

Validation shared by the product, asset, youtube-asset and composer
royalty-split inline formsets. -/

/-- A form as `CopyrightInlineFormset.clean` sees it.  `cleaned_data = none`
models both a missing `cleaned_data` attribute (the caught
`AttributeError`) and a falsy empty dict; `some none` a truthy dict without
a `percentage` key, so the `.get` default 0 applies; `some (some p)` a
cleaned percentage `p`. -/
structure CopyrightForm where
  changed_data : List String
  cleaned_data : Option (Option ℚ)
  deriving Repr, DecidableEq

/-- The `is_delete` computation at the top of the first loop: true when the
first entry of `changed_data` is the DELETE flag. -/
def CopyrightForm.is_delete (f : CopyrightForm) : Bool :=
  match f.changed_data with
  | [] => false
  | x :: _ => x == "DELETE"

/-- `form.cleaned_data and not is_delete`: the form enters the percentage
check and accumulation. -/
def CopyrightForm.counts (f : CopyrightForm) : Bool :=
  f.cleaned_data.isSome && !f.is_delete

/-- `form.cleaned_data.get('percentage', 0)`. -/
def CopyrightForm.percentage (f : CopyrightForm) : ℚ :=
  match f.cleaned_data with
  | some (some p) => p
  | _ => 0

/-- Whether `percentage` violates `0 <= percentage <= 100`, in which case a
field error is added to the form. -/
def CopyrightForm.percentage_error (f : CopyrightForm) : Bool :=
  f.counts && !(decide (0 ≤ f.percentage) && decide (f.percentage ≤ 100))

/-- First loop of `CopyrightInlineFormset.clean`: per-form percentage field
errors plus the accumulated `percentage_total`. -/
def cleanFirstLoop : List CopyrightForm → List Bool × ℚ
  | [] => ([], 0)
  | f :: rest =>
    let r := cleanFirstLoop rest
    (f.percentage_error :: r.1, (if f.counts then f.percentage else 0) + r.2)

/-- `CopyrightInlineFormset.clean`: for each form, the pair (percentage
field error added by the first loop, non-field error added by the second
loop).  The second loop adds the non-field error to every form exactly when
`percentage_total` violates `0 <= percentage_total <= 100.00`. -/
def copyrightFormsetClean (forms : List CopyrightForm) : List (Bool × Bool) :=
  let r := cleanFirstLoop forms
  let totalBad := !(decide (0 ≤ r.2) && decide (r.2 ≤ 100))
  r.1.map fun e => (e, totalBad)

theorem cleanFirstLoop_fst_length (forms : List CopyrightForm) :
    (cleanFirstLoop forms).1.length = forms.length := by
  induction forms with
  | nil => simp [cleanFirstLoop]
  | cons f rest ih => simp [cleanFirstLoop, ih]

theorem cleanFirstLoop_fst_get (forms : List CopyrightForm) (i : ℕ) (f : CopyrightForm)
    (hf : forms[i]? = some f) :
    (cleanFirstLoop forms).1[i]? = some f.percentage_error := by
  induction forms generalizing i with
  | nil => simp at hf
  | cons g rest ih =>
    match i with
    | 0 =>
      simp only [List.getElem?_cons_zero, Option.some.injEq] at hf
      cases hf
      simp [cleanFirstLoop]
    | i + 1 =>
      simp only [List.getElem?_cons_succ] at hf
      simpa [cleanFirstLoop] using ih i hf

theorem cleanFirstLoop_snd (forms : List CopyrightForm) :
    (cleanFirstLoop forms).2
      = ((forms.filter CopyrightForm.counts).map CopyrightForm.percentage).sum := by
  induction forms with
  | nil => simp [cleanFirstLoop]
  | cons f rest ih =>
    by_cases hc : f.counts
    · simp [cleanFirstLoop, List.filter_cons, hc, ih]
    · simp [cleanFirstLoop, List.filter_cons, hc, ih]

/-- C5: `CopyrightInlineFormset.clean` adds a `percentage` field error to a
non-deleted form with cleaned data exactly when its cleaned percentage lies
outside [0, 100], and adds a non-field error to every form exactly when the
total of the participating forms' percentages lies outside [0, 100];
otherwise no error is added (both flags are characterised as equalities of
booleans). -/
theorem copyright_formset_clean_spec (forms : List CopyrightForm) :
    (copyrightFormsetClean forms).length = forms.length
    ∧ ∀ (i : ℕ) (f : CopyrightForm), forms[i]? = some f →
        (copyrightFormsetClean forms)[i]? =
          some (f.counts && !(decide (0 ≤ f.percentage) && decide (f.percentage ≤ 100)),
            !(decide (0 ≤ ((forms.filter CopyrightForm.counts).map CopyrightForm.percentage).sum)
              && decide
                (((forms.filter CopyrightForm.counts).map CopyrightForm.percentage).sum ≤ 100))) := by
  constructor
  · simp [copyrightFormsetClean, cleanFirstLoop_fst_length]
  · intro i f hf
    have h3 := cleanFirstLoop_fst_get forms i f hf
    simp [copyrightFormsetClean, List.getElem?_map, h3, cleanFirstLoop_snd,
      CopyrightForm.percentage_error]

/-- A sample form with an out-of-range percentage. -/
def sampleForm1 : CopyrightForm :=
  { changed_data := ["percentage"], cleaned_data := some (some 150) }

/-- A sample deleted form. -/
def sampleForm2 : CopyrightForm :=
  { changed_data := ["DELETE"], cleaned_data := some (some 10) }

/-- Closed instance of `copyright_formset_clean_spec`: two forms, one with
percentage 150 (field error) and one deleted; the total 150 is out of range
so the non-field error is added. -/
theorem copyright_formset_clean_spec_inst :
    (copyrightFormsetClean [sampleForm1, sampleForm2])[0]? =
      some (sampleForm1.counts
          && !(decide (0 ≤ sampleForm1.percentage) && decide (sampleForm1.percentage ≤ 100)),
        !(decide (0 ≤ (([sampleForm1, sampleForm2].filter CopyrightForm.counts).map
              CopyrightForm.percentage).sum)
          && decide ((([sampleForm1, sampleForm2].filter CopyrightForm.counts).map
              CopyrightForm.percentage).sum ≤ 100))) :=
  (copyright_formset_clean_spec [sampleForm1, sampleForm2]).2 0 sampleForm1 rfl

/-! ## Notification fan-out: `notify_users`, `process_notification`,
`notify_on_telegram` -/

/-- The fields of a `SystemNotification` row used by `notify_users`. -/
structure SystemNotificationRec where
  code : String
  description : String
  verb : String
  level : String
  deriving Repr, DecidableEq

/-- A user profile as the notification code sees it.
`master_client_name = none` models `get_master_client()` returning `None`,
whose `.name` access raises the `AttributeError` the code catches;
`default_master_client = none` models a falsy
`get_default_system_master_client()`. -/
structure UserProfile where
  email_logo : String
  master_client_name : Option String
  default_master_client : Option String
  deriving Repr, DecidableEq

/-- A `User` row as the notification code sees it; `email = none` is a
Python `None` email. -/
structure NUser where
  username : String
  email : Option String
  profile : UserProfile
  deriving Repr, DecidableEq

/-- Observable effects of the notification functions. -/
inductive NotifyEffect
  | bell (sender : String) (verb : String) (recipients : List (Option String))
      (level : Option String)
  | mailSend (recipients : List (Option String)) (template : String)
  | printed (msg : String)
  deriving Repr, DecidableEq

/-- Whether the effect actually dispatches a notification (bell or email),
as opposed to only printing. -/
def NotifyEffect.isSend : NotifyEffect → Bool
  | .bell _ _ _ _ => true
  | .mailSend _ _ => true
  | .printed _ => false

/-- The email-recipient accumulation loop shared verbatim by `notify_users`
and `process_notification`: each recipient's email is appended once
unconditionally, then appended again when it is neither `None` nor the
empty string. -/
def build_email_recipients : List NUser → List (Option String)
  | [] => []
  | r :: rest =>
    r.email :: (if r.email ≠ none ∧ r.email ≠ some "" then [r.email] else [])
      ++ build_email_recipients rest

/-- Python `level or notification.level`: `None` and the empty string are
falsy, so they fall back to the notification level. -/
def pyStrOr (level : Option String) (fallback : String) : String :=
  match level with
  | some l => if l = "" then fallback else l
  | none => fallback

/-- `notify_users` (notification helpers module).  Returns the effect trace
together with either the returned value or the uncaught exception.  The
function body has no `return` statement, so a normal exit returns the
Python `None`, modelled as `Option.none : Option Bool` (the annotation
promises `bool`).  When the code matches no `SystemNotification` row, the
`DoesNotExist` handler only prints, and the following line reads the
never-assigned local `notification`, raising `UnboundLocalError` (a
`NameError`) outside any handler. -/
def notify_users (table : List SystemNotificationRec) (notification_code : String)
    (recipients : List NUser) (action_object author : Option String) (url : String)
    (extra_info : Option String) (level : Option String) :
    List NotifyEffect × Except PyExc (Option Bool) :=
  match table.find? (fun n => n.code == notification_code) with
  | none =>
    ([.printed "SystemNotification matching query does not exist."], .error .nameError)
  | some notification =>
    let verb :=
      if extra_info ≠ none ∧ extra_info ≠ some "" then
        notification.verb ++ " " ++ extra_info.getD ""
      else notification.verb
    match recipients with
    | [] =>
      ([.printed ("A notificação: " ++ verb ++
          " não possui recipientes, e por isso não foi enviada.")], .ok none)
    | r0 :: rest =>
      let authorWarning :=
        match author, r0.profile.default_master_client with
        | none, none => [NotifyEffect.printed "Não há um master client no sistema. Favor corrigir."]
        | _, _ => []
      let authorStr :=
        match author with
        | some a => a
        | none =>
          match r0.profile.default_master_client with
          | some mc => mc
          | none => r0.username
      let allRecipients := r0 :: rest
      (authorWarning
        ++ [.bell authorStr verb (allRecipients.map (fun r => r.email)) level,
            .mailSend (build_email_recipients allRecipients)
              (pyStrOr level notification.level)],
       .ok none)

/-- `process_notification` (chat/notification helper module): sends the
bell notification, then the email when `send_email` is set, and returns
`True`. -/
def process_notification (author : String) (recipients : List NUser) (verb : String)
    (action_object : Option String) (url : String) (send_email : Bool)
    (email_template email_subject email_title email_description email_button_text
      email_url email_logo email_master_client_name : String)
    (level : Option String) : List NotifyEffect × Bool :=
  (NotifyEffect.bell author verb (recipients.map (fun r => r.email)) level
    :: (if send_email then [.mailSend (build_email_recipients recipients) email_template]
        else []),
   true)

/-- C6: with a notification code that exists and a non-empty recipients
queryset, `notify_users` dispatches both the in-app bell notification
(`notify.send`) and the email (`mail.send`), the email template being the
given level or else the notification level; with an empty queryset, no
bell and no mail effect occurs. -/
theorem notify_users_dispatch (table : List SystemNotificationRec)
    (notification_code : String) (recipients : List NUser)
    (action_object author : Option String) (url : String)
    (extra_info : Option String) (level : Option String) :
    ∀ n, table.find? (fun m => m.code == notification_code) = some n →
      (recipients ≠ [] →
        (∃ s v r, NotifyEffect.bell s v r level ∈
          (notify_users table notification_code recipients action_object author url
            extra_info level).1)
        ∧ NotifyEffect.mailSend (build_email_recipients recipients) (pyStrOr level n.level) ∈
          (notify_users table notification_code recipients action_object author url
            extra_info level).1)
      ∧ (recipients = [] →
        (notify_users table notification_code recipients action_object author url
          extra_info level).1.all (fun e => !e.isSend)) := by
  intro n hn
  constructor
  · intro hne
    match recipients, hne with
    | r0 :: rest, _ =>
      simp only [notify_users, hn]
      constructor
      · exact ⟨_, _, _, List.mem_append_right _ (List.mem_cons_self _ _)⟩
      · exact List.mem_append_right _ (List.mem_cons_of_mem _ (List.mem_cons_self _ _))
  · intro he
    subst he
    simp [notify_users, hn, NotifyEffect.isSend]

/-- A sample `SystemNotification` row. -/
def sampleNotification : SystemNotificationRec :=
  { code := "new_task", description := "d", verb := "v", level := "info" }

/-- A sample recipient with a valid email. -/
def sampleUserA : NUser :=
  { username := "a", email := some "a@x"
    profile := { email_logo := "l", master_client_name := some "M"
                 default_master_client := some "D" } }

/-- A sample recipient with a `None` email. -/
def sampleUserB : NUser :=
  { username := "b", email := none
    profile := { email_logo := "", master_client_name := none
                 default_master_client := none } }

/-- Closed instance of `notify_users_dispatch` on a one-row table and one
recipient. -/
theorem notify_users_dispatch_inst :
    ([sampleUserA] ≠ ([] : List NUser) →
      (∃ s v r, NotifyEffect.bell s v r none ∈
        (notify_users [sampleNotification] "new_task" [sampleUserA]
          none none "u" none none).1)
      ∧ NotifyEffect.mailSend (build_email_recipients [sampleUserA])
          (pyStrOr none sampleNotification.level) ∈
        (notify_users [sampleNotification] "new_task" [sampleUserA]
          none none "u" none none).1)
    ∧ (([sampleUserA] : List NUser) = [] →
      (notify_users [sampleNotification] "new_task" [sampleUserA]
        none none "u" none none).1.all (fun e => !e.isSend)) :=
  notify_users_dispatch [sampleNotification] "new_task" [sampleUserA]
    none none "u" none none sampleNotification rfl

/-- C9: with a notification code matching no `SystemNotification` row,
`notify_users` raises an uncaught `NameError` (`UnboundLocalError` on the
local `notification`), sends nothing; and on no path does the function ever
return `True`, despite its `bool` return annotation. -/
theorem notify_users_missing_code (table : List SystemNotificationRec)
    (notification_code : String) (recipients : List NUser)
    (action_object author : Option String) (url : String)
    (extra_info : Option String) (level : Option String) :
    (table.find? (fun m => m.code == notification_code) = none →
      (notify_users table notification_code recipients action_object author url
        extra_info level).2 = .error .nameError
      ∧ (notify_users table notification_code recipients action_object author url
          extra_info level).1.all (fun e => !e.isSend))
    ∧ ∀ b, (notify_users table notification_code recipients action_object author url
        extra_info level).2 = .ok b → b ≠ some true := by
  constructor
  · intro hn
    simp [notify_users, hn, NotifyEffect.isSend]
  · intro b hb
    match hfind : table.find? (fun m => m.code == notification_code) with
    | none => simp [notify_users, hfind] at hb
    | some n =>
      match recipients with
      | [] =>
        simp only [notify_users, hfind] at hb
        cases hb
        simp
      | r0 :: rest =>
        simp only [notify_users, hfind] at hb
        cases hb
        simp

/-- Closed instance of `notify_users_missing_code`: empty table, so the
lookup fails. -/
theorem notify_users_missing_code_inst :
    (([] : List SystemNotificationRec).find? (fun m => m.code == "new_task") = none →
      (notify_users [] "new_task" [] none none "u" none none).2 = .error .nameError
      ∧ (notify_users [] "new_task" [] none none "u" none none).1.all
          (fun e => !e.isSend))
    ∧ ∀ b, (notify_users [] "new_task" [] none none "u" none none).2 = .ok b →
        b ≠ some true :=
  notify_users_missing_code [] "new_task" [] none none "u" none none

/-- Lower bound on how often a recipient's email occurs in the built
email-recipient list: twice when valid, once otherwise. -/
theorem build_email_count_mem (rs : List NUser) (r : NUser) (hr : r ∈ rs) :
    (if r.email ≠ none ∧ r.email ≠ some "" then 2 else 1)
      ≤ (build_email_recipients rs).count r.email := by
  induction rs with
  | nil => simp at hr
  | cons s rest ih =>
    have hsplit : build_email_recipients (s :: rest)
        = (s.email :: (if s.email ≠ none ∧ s.email ≠ some "" then [s.email] else []))
          ++ build_email_recipients rest := by
      simp [build_email_recipients]
    rcases List.mem_cons.mp hr with h | h
    · subst h
      rw [hsplit, List.count_append]
      by_cases hv : r.email ≠ none ∧ r.email ≠ some ""
      · have h2 : ((r.email :: (if r.email ≠ none ∧ r.email ≠ some ""
            then [r.email] else [])).count r.email) = 2 := by
          simp [hv, List.count_cons]
        rw [if_pos hv, h2]
        omega
      · have h1 : ((r.email :: (if r.email ≠ none ∧ r.email ≠ some ""
            then [r.email] else [])).count r.email) = 1 := by
          simp [hv, List.count_cons]
        rw [if_neg hv, h1]
        omega
    · have hrec := ih h
      rw [hsplit, List.count_append]
      split_ifs at hrec ⊢ <;> omega

/-- C8: the email-recipient list built by `notify_users` and
`process_notification` equals, recipient by recipient, two copies of each
email that is neither `None` nor empty and one copy of each other email; in
particular each recipient with a valid email address has its address at
least twice in the list passed to `mail.send`, and a recipient with a
`None` or empty email still contributes one entry. -/
theorem email_recipients_duplicated (rs : List NUser) :
    build_email_recipients rs
      = rs.flatMap (fun r =>
          if r.email ≠ none ∧ r.email ≠ some "" then [r.email, r.email] else [r.email])
    ∧ (∀ r ∈ rs, (r.email ≠ none ∧ r.email ≠ some "") →
        2 ≤ (build_email_recipients rs).count r.email)
    ∧ (∀ r ∈ rs, 1 ≤ (build_email_recipients rs).count r.email) := by
  refine ⟨?_, ?_, ?_⟩
  · induction rs with
    | nil => simp [build_email_recipients]
    | cons r rest ih =>
      by_cases h : r.email ≠ none ∧ r.email ≠ some ""
      · simp [build_email_recipients, h, ih]
      · simp [build_email_recipients, h, ih]
  · intro r hr hv
    have := build_email_count_mem rs r hr
    rw [if_pos hv] at this
    exact this
  · intro r hr
    have := build_email_count_mem rs r hr
    split_ifs at this <;> omega

/-- Closed instance of `email_recipients_duplicated` on one valid and one
`None` email. -/
theorem email_recipients_duplicated_inst :
    (build_email_recipients [sampleUserA, sampleUserB] = [some "a@x", some "a@x", none])
    ∧ 2 ≤ (build_email_recipients [sampleUserA, sampleUserB]).count (some "a@x") := by
  have h := email_recipients_duplicated [sampleUserA, sampleUserB]
  refine ⟨?_, ?_⟩
  · rw [h.1]
    rfl
  · have h2 := h.2.1 sampleUserA (List.mem_cons_self _ _)
      (by constructor <;> simp [sampleUserA])
    simpa [sampleUserA] using h2

/-! ## `notify_on_telegram` -/

/-- The chat-id settings constants imported by the telegram module. -/
structure TelegramConfig where
  lider_atendimento : ℕ
  atendimento : ℕ
  comunicacao : ℕ
  conteudo : ℕ
  financeiro : ℕ
  dev : ℕ
  deriving Repr, DecidableEq

/-- The fixed sector-to-chat-id dict built at the top of
`notify_on_telegram`, with `.get` semantics (`none` for unknown keys). -/
def telegramChatIds (cfg : TelegramConfig) (chat_id : String) : Option ℕ :=
  if chat_id = "lider_atendimento" then some cfg.lider_atendimento
  else if chat_id = "atendimento" then some cfg.atendimento
  else if chat_id = "comunicacao" then some cfg.comunicacao
  else if chat_id = "conteudo" then some cfg.conteudo
  else if chat_id = "financeiro" then some cfg.financeiro
  else if chat_id = "dev" then some cfg.dev
  else none

/-- Bytes left untouched by `urllib.parse.quote` with its default
`safe = "/"`: ASCII letters, digits, and `_ . - ~ /`. -/
def quoteSafe (b : ℕ) : Bool :=
  (65 ≤ b && b ≤ 90) || (97 ≤ b && b ≤ 122) || (48 ≤ b && b ≤ 57)
    || b == 45 || b == 46 || b == 95 || b == 126 || b == 47

/-- Upper-case hex digit (as a byte) of a value below 16. -/
def hexDigit (n : ℕ) : ℕ := if n < 10 then 48 + n else 55 + n

/-- `urllib.parse.quote` over the UTF-8 bytes of the text: safe bytes are
kept, every other byte is percent-encoded as two upper-case hex digits. -/
def pyQuote : List ℕ → List ℕ
  | [] => []
  | b :: rest =>
    (if quoteSafe b then [b] else [37, hexDigit (b / 16), hexDigit (b % 16)]) ++ pyQuote rest

/-- Observable effects of `notify_on_telegram`. -/
inductive TelegramEffect
  | logNotice (msg : String)
  | logFailure
  | sent (bot_token : String) (chat_id : Option ℕ) (text : List ℕ)
  deriving Repr, DecidableEq

/-- Whether the effect is an outgoing telegram message. -/
def TelegramEffect.isSent : TelegramEffect → Bool
  | .sent _ _ _ => true
  | _ => false

/-- `notify_on_telegram` (chat helper module).  `text` is the UTF-8 byte
sequence of the message.  `send` is the outcome of the external
`send_message` call plus `response.json()`: the response JSON, or an
exception; the function catches that exception and logs instead of
propagating, so it always returns a plain effect list. -/
def notify_on_telegram (send_telegram_notifications : Bool) (cfg : TelegramConfig)
    (chat_id : String) (text : List ℕ) (bot_token : String)
    (send : Except Unit String) : List TelegramEffect :=
  if !send_telegram_notifications then
    [.logNotice
      "nenhuma notificação foi enviada porque SEND_TELEGRAM_NOTIFICATIONS está definida como False."]
  else
    .sent bot_token (telegramChatIds cfg chat_id) (pyQuote text)
      :: (match send with
          | .ok resp => [.logNotice resp]
          | .error _ => [.logFailure])

/-- C7: with `SEND_TELEGRAM_NOTIFICATIONS` off, `notify_on_telegram` sends
nothing and only logs; with it on, it emits exactly one message, whose text
is the `urllib.parse.quote` encoding of the input and whose chat id is the
lookup of the sector in the fixed mapping; and an exception from the send
is caught and logged, never propagated (the effect list is total in the
send outcome). -/
theorem notify_on_telegram_spec (flag : Bool) (cfg : TelegramConfig) (chat_id : String)
    (text : List ℕ) (bot_token : String) (send : Except Unit String) :
    (flag = false →
      (notify_on_telegram flag cfg chat_id text bot_token send).all (fun e => !e.isSent))
    ∧ (flag = true →
      (notify_on_telegram flag cfg chat_id text bot_token send).filter TelegramEffect.isSent
        = [.sent bot_token (telegramChatIds cfg chat_id) (pyQuote text)])
    ∧ (flag = true → send = .error () →
      TelegramEffect.logFailure ∈ notify_on_telegram flag cfg chat_id text bot_token send) := by
  refine ⟨?_, ?_, ?_⟩
  · intro h
    subst h
    simp [notify_on_telegram, TelegramEffect.isSent]
  · intro h
    subst h
    match send with
    | .ok resp => simp [notify_on_telegram, TelegramEffect.isSent]
    | .error _ => simp [notify_on_telegram, TelegramEffect.isSent]
  · intro h hs
    subst h
    subst hs
    simp [notify_on_telegram]

/-- A sample telegram configuration. -/
def sampleTelegramConfig : TelegramConfig :=
  { lider_atendimento := 1, atendimento := 2, comunicacao := 3, conteudo := 4
    financeiro := 5, dev := 6 }

/-- Closed instance of `notify_on_telegram_spec`: flag on, failing send,
message "a b" (bytes 97, 32, 98; the space is percent-encoded). -/
theorem notify_on_telegram_spec_inst :
    ((true = false →
      (notify_on_telegram true sampleTelegramConfig "financeiro" [97, 32, 98] "tok"
        (.error ())).all (fun e => !e.isSent))
    ∧ (true = true →
      (notify_on_telegram true sampleTelegramConfig "financeiro" [97, 32, 98] "tok"
        (.error ())).filter TelegramEffect.isSent
        = [.sent "tok" (telegramChatIds sampleTelegramConfig "financeiro")
            (pyQuote [97, 32, 98])])
    ∧ (true = true → (.error () : Except Unit String) = .error () →
      TelegramEffect.logFailure ∈
        notify_on_telegram true sampleTelegramConfig "financeiro" [97, 32, 98] "tok"
          (.error ()))) :=
  notify_on_telegram_spec true sampleTelegramConfig "financeiro" [97, 32, 98] "tok" (.error ())

/-! ## `product_post_save` order normalisation (catalog models) -/

/-- A `ProductAsset` row as the signal handler sees it. -/
structure ProductAssetRec where
  id : ℕ
  order : ℤ
  deriving Repr, DecidableEq

/-- The order-normalisation part of the `product_post_save` signal handler:
the related `ProductAsset` rows are fetched ordered by `order`, zipped with
`[1..n]`, and every row whose `order` differs from its position is
rewritten (saved); rows already in place are left unsaved.  Returns each
row with its final `order` and whether it was saved.  With no related rows
the handler returns before normalising. -/
def product_post_save (product_assets : List ProductAssetRec) :
    List (ProductAssetRec × Bool) :=
  if product_assets.isEmpty then []
  else
    let sorted := product_assets.mergeSort (fun a b => decide (a.order ≤ b.order))
    (sorted.zip (List.range' 1 sorted.length)).map
      (fun p => if p.1.order ≠ (p.2 : ℤ) then ({ p.1 with order := (p.2 : ℤ) }, true)
        else (p.1, false))

/-- Orders after the normalising map at any starting position: position by
position, the resulting `order` is the zipped range value, whether or not
the row was rewritten. -/
theorem zip_orders (l : List ProductAssetRec) (s : ℕ) :
    ((l.zip (List.range' s l.length)).map
        (fun p => if p.1.order ≠ (p.2 : ℤ) then ({ p.1 with order := (p.2 : ℤ) }, true)
          else (p.1, false))).map (fun p => p.1.order)
      = (List.range' s l.length).map (fun n => (n : ℤ)) := by
  induction l generalizing s with
  | nil => simp
  | cons a rest ih =>
    simp only [List.length_cons, List.range'_succ, List.zip_cons_cons, List.map_cons]
    by_cases h : a.order = (s : ℤ)
    · simp only [h, ne_eq, not_true_eq_false, if_false, ite_self]
      rw [ih (s + 1)]
      simp [h]
    · simp only [ne_eq, h, not_false_eq_true, if_true]
      rw [ih (s + 1)]
      simp [h]

/-- Element lookup in a list zipped against the range starting at `s`. -/
theorem zip_range_get (l : List ProductAssetRec) (s i : ℕ) (a : ProductAssetRec)
    (ha : l[i]? = some a) :
    (l.zip (List.range' s l.length))[i]? = some (a, s + i) := by
  induction l generalizing s i with
  | nil => simp at ha
  | cons b rest ih =>
    match i with
    | 0 =>
      simp only [List.getElem?_cons_zero, Option.some.injEq] at ha
      subst ha
      simp [List.range'_succ]
    | i + 1 =>
      simp only [List.getElem?_cons_succ] at ha
      have hr := ih (s + 1) i ha
      simp only [List.length_cons, List.range'_succ, List.zip_cons_cons,
        List.getElem?_cons_succ]
      rw [hr, show s + 1 + i = s + (i + 1) from by omega]

/-- C10: after the post-save handler runs on a product with related
`ProductAsset` rows, the rows taken in ascending previous order carry
exactly the orders `1..n`; a row whose previous order already equals its
position is left unsaved, every other row is rewritten and saved. -/
theorem product_post_save_normalises (product_assets : List ProductAssetRec)
    (h : product_assets ≠ []) :
    ((product_post_save product_assets).map (fun p => p.1.order)
      = (List.range' 1 product_assets.length).map (fun n => (n : ℤ)))
    ∧ ∀ (i : ℕ) (a : ProductAssetRec),
        (product_assets.mergeSort (fun a b => decide (a.order ≤ b.order)))[i]? = some a →
        (product_post_save product_assets)[i]?
          = some (if a.order ≠ ((i + 1 : ℕ) : ℤ)
              then ({ a with order := ((i + 1 : ℕ) : ℤ) }, true) else (a, false)) := by
  have hne : product_assets.isEmpty = false := by
    cases product_assets with
    | nil => exact absurd rfl h
    | cons a rest => rfl
  have hlen : (product_assets.mergeSort (fun a b => decide (a.order ≤ b.order))).length
      = product_assets.length := List.length_mergeSort _
  constructor
  · simp only [product_post_save, hne, Bool.false_eq_true, if_false]
    rw [← hlen]
    exact zip_orders _ 1
  · intro i a ha
    simp only [product_post_save, hne, Bool.false_eq_true, if_false, List.getElem?_map]
    rw [zip_range_get _ 1 i a ha, Nat.add_comm 1 i]
    rfl

/-- Closed instance of `product_post_save_normalises` on three rows with
previous orders 5, 2, 2. -/
theorem product_post_save_normalises_inst :
    (([{ id := 1, order := 5 }, { id := 2, order := 2 }, { id := 3, order := 2 }] :
        List ProductAssetRec) ≠ [])
    ∧ ((product_post_save
          [{ id := 1, order := 5 }, { id := 2, order := 2 }, { id := 3, order := 2 }]).map
        (fun p => p.1.order)
      = (List.range' 1 3).map (fun n => (n : ℤ))) := by
  refine ⟨by simp, ?_⟩
  have h := product_post_save_normalises
    [{ id := 1, order := 5 }, { id := 2, order := 2 }, { id := 3, order := 2 }] (by simp)
  exact h.1

/-! ## `Batch.make_invoices` (financial models)

The slice of database state the method touches is a `BatchState`; querysets
are lists, primary keys explicit naturals, and Django `.get()` semantics
(`DoesNotExist` / `MultipleObjectsReturned`) explicit case splits. -/

/-- The fields of a `Holder` row used by `make_invoices` and the invoice
post-save signal (`sales_commission` lives on `holder.catalog`). -/
structure HolderFin where
  id : ℕ
  tax_retention : ℚ
  bank_data : String
  legal_document : String
  legal_name : String
  share : ℚ
  sales_commission : ℚ
  deriving Repr, DecidableEq

/-- A `ReportItem` row of the batch as `make_invoices` aggregates it. -/
structure ReportItemFin where
  holder_id : ℕ
  value_holder_converted : ℚ
  value_converted_distributor : ℚ
  deriving Repr, DecidableEq

/-- An `Invoice` row of the batch's `invoice_set`. -/
structure InvoiceRow where
  id : ℕ
  number : String
  holder_id : ℕ
  value_distributor_converted : ℚ
  value_converted : ℚ
  value_commission_converted : Option ℚ
  commission : ℚ
  status : String
  tax_retention : ℚ
  bank_data : String
  legal_document : String
  legal_name : String
  payment_date : Option ℕ
  deriving Repr, DecidableEq

/-- An `Advance` row.  `payment_started` models
`payment_start_date < timezone.now().date()` at the time of the run. -/
structure AdvanceRow where
  id : ℕ
  holder_id : ℕ
  amount : ℚ
  advance_date : ℕ
  discount_type : String
  discount_amount : ℚ
  will_be_discounted : Bool
  payment_started : Bool
  deriving Repr, DecidableEq

/-- An `AdvanceInvoiceRelation` (amortization) row. -/
structure AmortRow where
  advance_id : ℕ
  invoice_id : ℕ
  amount : ℚ
  paid : Bool
  deriving Repr, DecidableEq

/-- The database state `Batch.make_invoices` reads and writes: the batch
status and errors, the holder table, the batch's report items, its invoice
set, the advances and amortizations, the dispatched invoice-file tasks and
the primary-key counter for created invoices. -/
structure BatchState where
  status : String
  errors : String
  holders : List HolderFin
  report_items : List ReportItemFin
  invoices : List InvoiceRow
  advances : List AdvanceRow
  amortizations : List AmortRow
  dispatched_invoice_files : List ℕ
  next_id : ℕ
  deriving Repr, DecidableEq

/-- `Advance.total_paid`: sum of the holder's paid amortizations of this
advance (aggregate default 0). -/
def advance_total_paid (s : BatchState) (a : AdvanceRow) : ℚ :=
  ((s.amortizations.filter (fun r => r.advance_id == a.id && r.paid)).map
    (fun r => r.amount)).sum

/-- `Advance.total_to_pay`. -/
def advance_total_to_pay (s : BatchState) (a : AdvanceRow) : ℚ :=
  a.amount - advance_total_paid s a

/-- `Advance.is_fully_paid`. -/
def advance_is_fully_paid (s : BatchState) (a : AdvanceRow) : Bool :=
  decide (a.amount ≤ advance_total_paid s a)

/-- `Advance.has_to_be_discounted`: false when not flagged for discount,
already fully paid, or the payment start date already passed. -/
def advance_has_to_be_discounted (s : BatchState) (a : AdvanceRow) : Bool :=
  a.will_be_discounted && !(advance_is_fully_paid s a) && !a.payment_started

/-- `Advance.next_installment_value`. -/
def advance_next_installment_value (s : BatchState) (a : AdvanceRow) (amount : ℚ) : ℚ :=
  if advance_total_to_pay s a < amount then advance_total_to_pay s a else amount

/-- `AdvanceInvoiceRelation.set_value` for a relation with an invoice:
`invoice_value or self.invoice.value_converted` (0 falsy), the per-type
installment value, a `ValueError` on an invalid discount type, capped at
the invoice value. -/
def amort_set_value (s : BatchState) (a : AdvanceRow) (inv : InvoiceRow)
    (invoice_value_arg : ℚ) : Except PyExc ℚ :=
  let invoice_value := if invoice_value_arg = 0 then inv.value_converted else invoice_value_arg
  if a.discount_type = "INST" then
    .ok (let v := advance_next_installment_value s a a.discount_amount
         if invoice_value < v then invoice_value else v)
  else if a.discount_type = "PERC" then
    .ok (let v := advance_next_installment_value s a
           (roundTo 2 (invoice_value * (a.discount_amount / 100)))
         if invoice_value < v then invoice_value else v)
  else .error .valueError

/-- `Advance.create_advance_invoice_relation`: nothing when the advance is
not to be discounted; otherwise get-or-create the amortization row for
(advance, invoice) — `.get` raises `MultipleObjectsReturned` past the
`DoesNotExist` handler when several rows match — set its value and save it.
A row created with an invoice is not marked paid by the amortization
post-save signal.  Returns the installment amount, when one was made, and
the updated state. -/
def create_advance_invoice_relation (s : BatchState) (a : AdvanceRow) (inv : InvoiceRow)
    (max_installment_value : ℚ) : Except PyExc (Option ℚ × BatchState) :=
  if !(advance_has_to_be_discounted s a) then .ok (none, s)
  else
    match s.amortizations.filter
        (fun r => r.advance_id == a.id && r.invoice_id == inv.id) with
    | _ :: _ :: _ => .error .multipleObjectsReturned
    | existing =>
      match amort_set_value s a inv max_installment_value with
      | .error e => .error e
      | .ok amount =>
        let newAmorts :=
          match existing with
          | _ :: _ =>
            s.amortizations.map (fun r =>
              if r.advance_id == a.id && r.invoice_id == inv.id then { r with amount := amount }
              else r)
          | [] =>
            s.amortizations ++ [{ advance_id := a.id, invoice_id := inv.id
                                  amount := amount, paid := false }]
        .ok (some amount, { s with amortizations := newAmorts })

/-- A fresh `Invoice()` with field defaults and a fresh uuid number,
modelled from the primary-key counter. -/
def freshInvoice (next_id : ℕ) : InvoiceRow :=
  { id := next_id, number := "uuid-" ++ toString next_id, holder_id := 0
    value_distributor_converted := 0, value_converted := 0
    value_commission_converted := none, commission := 0, status := "OP"
    tax_retention := 0, bank_data := "", legal_document := "", legal_name := ""
    payment_date := none }

/-- `invoice.save()` together with the `post_save_invoices` signal handler:
on creation the handler sets the commission fields and rewrites `number`
from the primary key and the configured number tag; when `payment_date` is
set it closes the invoice, marks its amortizations paid and sets the batch
status to payed.  Returns the stored row and the updated state. -/
def invoice_save (number_tag : String) (s : BatchState) (inv : InvoiceRow)
    (h : HolderFin) (created : Bool) : InvoiceRow × BatchState :=
  let inv :=
    if created then
      { inv with
        commission := h.share / 100 * (h.sales_commission / 100) * 100
        value_commission_converted :=
          some (roundTo 4 (inv.value_converted * h.sales_commission / 100))
        number := number_tag ++ " " ++ toString inv.id }
    else inv
  let paymentSet := inv.payment_date.isSome
  let inv := if paymentSet then { inv with status := "CL" } else inv
  let amorts :=
    if paymentSet then
      s.amortizations.map (fun r =>
        if r.invoice_id == inv.id then { r with paid := true } else r)
    else s.amortizations
  let batchStatus := if paymentSet && !(s.status == "PA") then "PA" else s.status
  let invoices :=
    if created then s.invoices ++ [inv]
    else s.invoices.map (fun r => if r.id == inv.id then inv else r)
  (inv, { s with invoices := invoices, amortizations := amorts, status := batchStatus })

/-- The while loop of `make_invoices` creating amortizations against the
invoice: iterates the holder's advances while the accumulated amortization
value stays below `invoice_value_without_advances`; a created installment
adds its amount to the running total.  Returns the state reached and the
first uncaught exception, if any. -/
def amortization_loop (inv : InvoiceRow) (invoice_value_without_advances : ℚ) :
    List AdvanceRow → ℚ → BatchState → BatchState × Option PyExc
  | [], _, s => (s, none)
  | a :: rest, total_amortization_value, s =>
    if total_amortization_value < invoice_value_without_advances then
      match create_advance_invoice_relation s a inv
          (inv.value_converted - total_amortization_value) with
      | .error e => (s, some e)
      | .ok (none, s1) =>
        amortization_loop inv invoice_value_without_advances rest total_amortization_value s1
      | .ok (some amount, s1) =>
        amortization_loop inv invoice_value_without_advances rest
          (total_amortization_value + amount) s1
    else (s, none)

/-- The tail of the per-holder body once the invoice row and its fields are
determined: save the invoice (with its post-save signal), run the
amortization while loop over the holder's flagged advances ordered by
advance date, and dispatch the invoice-files task. -/
def save_and_amortize (number_tag : String) (h : HolderFin) (invoice : InvoiceRow)
    (created : Bool) (invoice_value_without_advances : ℚ) (s : BatchState) :
    BatchState × Option PyExc :=
  let (invoice, s) := invoice_save number_tag s invoice h created
  let holder_advances :=
    (s.advances.filter (fun a => a.holder_id == h.id && a.will_be_discounted)).mergeSort
      (fun x y => decide (x.advance_date ≤ y.advance_date))
  match amortization_loop invoice invoice_value_without_advances holder_advances 0 s with
  | (s1, none) =>
    ({ s1 with dispatched_invoice_files := s1.dispatched_invoice_files ++ [invoice.id] },
     none)
  | (s1, some e) => (s1, some e)

/-- The per-holder body of the `make_invoices` loop: aggregate the holder's
report items; when there are any, compute the tax retention, get or create
the invoice (`.get` raises `MultipleObjectsReturned` on duplicates), set
its fields, save it, run the amortization loop, and dispatch the
invoice-files task.  Returns the state reached and the first uncaught
exception, if any. -/
def make_invoices_holder (number_tag : String) (h : HolderFin) (s : BatchState) :
    BatchState × Option PyExc :=
  let report_items := s.report_items.filter (fun r => r.holder_id == h.id)
  if report_items.length > 0 then
    let invoice_value_converted := (report_items.map (fun r => r.value_holder_converted)).sum
    let value_distributor_converted :=
      (report_items.map (fun r => r.value_converted_distributor)).sum
    let tax_retention := invoice_value_converted * h.tax_retention / 100
    match s.invoices.filter (fun inv => inv.holder_id == h.id) with
    | _ :: _ :: _ => (s, some .multipleObjectsReturned)
    | found =>
      let (invoice, created, s) :=
        match found with
        | inv :: _ => (inv, false, s)
        | [] => (freshInvoice s.next_id, true, { s with next_id := s.next_id + 1 })
      let invoice_value_without_advances := roundTo 2 (invoice_value_converted - tax_retention)
      let invoice := { invoice with
        holder_id := h.id
        value_distributor_converted := roundTo 2 value_distributor_converted
        value_converted := invoice_value_without_advances
        status := "OP"
        tax_retention := roundTo 2 tax_retention
        bank_data := h.bank_data
        legal_document := h.legal_document
        legal_name := h.legal_name }
      save_and_amortize number_tag h invoice created invoice_value_without_advances s
  else (s, none)

/-- The `for holder in holders` loop of `make_invoices`, stopping at the
first uncaught exception with the state reached so far. -/
def make_invoices_body (number_tag : String) :
    List HolderFin → BatchState → BatchState × Option PyExc
  | [], s => (s, none)
  | h :: rest, s =>
    match make_invoices_holder number_tag h s with
    | (s1, none) => make_invoices_body number_tag rest s1
    | (s1, some e) => (s1, some e)

/-- `Batch.make_invoices`: a no-op unless the batch status is `PRS` or
`CL`; otherwise set status `PI`, clear errors, run the holder loop, and set
status `CL` on success or `PE` with errors `Unknown error.` on an
exception. -/
def make_invoices (number_tag : String) (s : BatchState) : BatchState :=
  if !(s.status == "PRS" || s.status == "CL") then s
  else
    let s1 := { s with status := "PI", errors := "" }
    match make_invoices_body number_tag s1.holders s1 with
    | (s2, none) => { s2 with status := "CL" }
    | (s2, some _) => { s2 with status := "PE", errors := "Unknown error." }

/-- Database well-formedness carried through `make_invoices`: invoice
primary keys are distinct and below the pk counter. -/
def StateWF (s : BatchState) : Prop :=
  (s.invoices.map (fun i => i.id)).Nodup ∧ ∀ i ∈ s.invoices, i.id < s.next_id

/-- The invoice fields `make_invoices` sets for a holder, aggregated over
the holder's report items of the batch: the claimed tax retention, value
and distributor value formulas (the subtracted tax retention being the
pre-rounding local value, as in the source). -/
def invoiceFieldSpec (items : List ReportItemFin) (h : HolderFin) (inv : InvoiceRow) : Prop :=
  inv.holder_id = h.id
  ∧ inv.tax_retention =
      roundTo 2 ((items.map (fun r => r.value_holder_converted)).sum * h.tax_retention / 100)
  ∧ inv.value_converted =
      roundTo 2 ((items.map (fun r => r.value_holder_converted)).sum
        - (items.map (fun r => r.value_holder_converted)).sum * h.tax_retention / 100)
  ∧ inv.value_distributor_converted =
      roundTo 2 (items.map (fun r => r.value_converted_distributor)).sum

theorem create_air_state (s : BatchState) (a : AdvanceRow) (inv : InvoiceRow) (m : ℚ)
    (r : Option ℚ × BatchState) (h : create_advance_invoice_relation s a inv m = .ok r) :
    ∃ am, r.2 = { s with amortizations := am } := by
  unfold create_advance_invoice_relation at h
  split_ifs at h with hd
  · cases h
    exact ⟨s.amortizations, rfl⟩
  · revert h
    cases s.amortizations.filter (fun r => r.advance_id == a.id && r.invoice_id == inv.id) with
    | nil =>
      cases amort_set_value s a inv m with
      | error e => intro h; cases h
      | ok amount => intro h; cases h; exact ⟨_, rfl⟩
    | cons x tl =>
      cases tl with
      | nil =>
        cases amort_set_value s a inv m with
        | error e => intro h; cases h
        | ok amount => intro h; cases h; exact ⟨_, rfl⟩
      | cons y tl2 => intro h; cases h

theorem amortization_loop_state (inv : InvoiceRow) (m : ℚ) (advs : List AdvanceRow)
    (t : ℚ) (s : BatchState) :
    ∃ am, (amortization_loop inv m advs t s).1 = { s with amortizations := am } := by
  induction advs generalizing t s with
  | nil => exact ⟨s.amortizations, rfl⟩
  | cons a rest ih =>
    simp only [amortization_loop]
    split_ifs with hc
    · cases hcr : create_advance_invoice_relation s a inv (inv.value_converted - t) with
      | error e => exact ⟨s.amortizations, rfl⟩
      | ok p =>
        obtain ⟨am1, h1⟩ := create_air_state s a inv _ p hcr
        cases p with
        | mk amt s1 =>
          cases amt with
          | none =>
            obtain ⟨am2, h2⟩ := ih t s1
            refine ⟨am2, ?_⟩
            rw [h2]
            simp only at h1
            rw [h1]
          | some amount =>
            obtain ⟨am2, h2⟩ := ih (t + amount) s1
            refine ⟨am2, ?_⟩
            rw [h2]
            simp only at h1
            rw [h1]
    · exact ⟨s.amortizations, rfl⟩

theorem invoice_save_state (tag : String) (s : BatchState) (inv : InvoiceRow)
    (h : HolderFin) (created : Bool) :
    (invoice_save tag s inv h created).2.invoices
      = (if created then s.invoices ++ [(invoice_save tag s inv h created).1]
         else s.invoices.map (fun r =>
            if r.id == (invoice_save tag s inv h created).1.id
            then (invoice_save tag s inv h created).1 else r))
    ∧ (invoice_save tag s inv h created).2.report_items = s.report_items
    ∧ (invoice_save tag s inv h created).2.holders = s.holders
    ∧ (invoice_save tag s inv h created).2.next_id = s.next_id
    ∧ (invoice_save tag s inv h created).2.errors = s.errors
    ∧ (invoice_save tag s inv h created).2.advances = s.advances
    ∧ (invoice_save tag s inv h created).1.id = inv.id
    ∧ (invoice_save tag s inv h created).1.holder_id = inv.holder_id
    ∧ (invoice_save tag s inv h created).1.tax_retention = inv.tax_retention
    ∧ (invoice_save tag s inv h created).1.value_converted = inv.value_converted
    ∧ (invoice_save tag s inv h created).1.value_distributor_converted
        = inv.value_distributor_converted := by
  cases created with
  | true =>
    cases hp : inv.payment_date with
    | none => simp [invoice_save, hp]
    | some d => simp [invoice_save, hp]
  | false =>
    cases hp : inv.payment_date with
    | none => simp [invoice_save, hp]
    | some d => simp [invoice_save, hp]

theorem save_and_amortize_ok (tag : String) (h : HolderFin) (invoice : InvoiceRow)
    (created : Bool) (ivwa : ℚ) (s s' : BatchState)
    (hok : save_and_amortize tag h invoice created ivwa s = (s', none)) :
    ∃ inv2 : InvoiceRow, inv2.id = invoice.id ∧ inv2.holder_id = invoice.holder_id
      ∧ inv2.tax_retention = invoice.tax_retention
      ∧ inv2.value_converted = invoice.value_converted
      ∧ inv2.value_distributor_converted = invoice.value_distributor_converted
      ∧ s'.invoices = (if created then s.invoices ++ [inv2]
          else s.invoices.map (fun r => if r.id == inv2.id then inv2 else r))
      ∧ s'.report_items = s.report_items ∧ s'.holders = s.holders
      ∧ s'.next_id = s.next_id ∧ s'.errors = s.errors ∧ s'.advances = s.advances := by
  unfold save_and_amortize at hok
  obtain ⟨h1, h2, h3, h4, h5, h6, h7, h8, h9, h10, h11⟩ :=
    invoice_save_state tag s invoice h created
  cases hsv : invoice_save tag s invoice h created with
  | mk inv2 s2 =>
    rw [hsv] at hok h1 h2 h3 h4 h5 h6 h7 h8 h9 h10 h11
    simp only at hok h1 h2 h3 h4 h5 h6 h7 h8 h9 h10 h11
    cases hal : amortization_loop inv2 ivwa
        ((s2.advances.filter (fun a => a.holder_id == h.id && a.will_be_discounted)).mergeSort
          (fun x y => decide (x.advance_date ≤ y.advance_date))) 0 s2 with
    | mk s3 err =>
      rw [hal] at hok
      cases err with
      | some e => simp at hok
      | none =>
        obtain ⟨am, ham⟩ := amortization_loop_state inv2 ivwa
          ((s2.advances.filter (fun a => a.holder_id == h.id && a.will_be_discounted)).mergeSort
            (fun x y => decide (x.advance_date ≤ y.advance_date))) 0 s2
        rw [hal] at ham
        simp only at ham
        simp only [Prod.mk.injEq] at hok
        obtain ⟨hs', -⟩ := hok
        refine ⟨inv2, h7, h8, h9, h10, h11, ?_, ?_, ?_, ?_, ?_, ?_⟩
        · rw [← hs', ham]
          exact h1
        · rw [← hs', ham]
          exact h2
        · rw [← hs', ham]
          exact h3
        · rw [← hs', ham]
          exact h4
        · rw [← hs', ham]
          exact h5
        · rw [← hs', ham]
          exact h6

theorem map_replace_ids (l : List InvoiceRow) (inv2 : InvoiceRow) :
    (l.map (fun r => if r.id == inv2.id then inv2 else r)).map (fun i => i.id)
      = l.map (fun i => i.id) := by
  induction l with
  | nil => rfl
  | cons r rest ih =>
    simp only [List.map_cons]
    by_cases hid : r.id = inv2.id
    · rw [if_pos (by simp [hid])]
      simp only [List.map_cons, ih]
      exact congrArg (fun n => n :: List.map (fun i => i.id) rest) hid.symm
    · rw [if_neg (by simp [hid])]
      simp only [List.map_cons, ih]

theorem map_replace_same_id (rest : List InvoiceRow) (inv2 : InvoiceRow)
    (hq : ∀ q ∈ rest, q.id ≠ inv2.id) :
    rest.map (fun r => if r.id == inv2.id then inv2 else r) = rest := by
  induction rest with
  | nil => rfl
  | cons q tl ih =>
    have h1 : (q.id == inv2.id) = false := by
      simp only [beq_eq_false_iff_ne, ne_eq]
      exact hq q (List.mem_cons_self _ _)
    simp only [List.map_cons, h1, Bool.false_eq_true, if_false]
    rw [ih (fun p hp => hq p (List.mem_cons_of_mem _ hp))]

theorem filter_map_replace_ne (l : List InvoiceRow) (inv2 : InvoiceRow) (x : ℕ)
    (huniq : ∀ r ∈ l, r.id = inv2.id → r.holder_id = inv2.holder_id)
    (hx : x ≠ inv2.holder_id) :
    (l.map (fun r => if r.id == inv2.id then inv2 else r)).filter
        (fun i => i.holder_id == x)
      = l.filter (fun i => i.holder_id == x) := by
  induction l with
  | nil => rfl
  | cons r rest ih =>
    have htail := ih (fun q hq hq2 => huniq q (List.mem_cons_of_mem _ hq) hq2)
    simp only [List.map_cons, List.filter_cons]
    by_cases hid : r.id = inv2.id
    · have hh := huniq r (List.mem_cons_self _ _) hid
      have h1 : (inv2.holder_id == x) = false := by
        simp only [beq_eq_false_iff_ne, ne_eq]
        exact fun hc => hx hc.symm
      have h2 : (r.holder_id == x) = false := by
        simp only [beq_eq_false_iff_ne, ne_eq, hh]
        exact fun hc => hx hc.symm
      have h3 : (r.id == inv2.id) = true := by
        simp only [beq_iff_eq]
        exact hid
      simp only [h3, if_true, h1, h2, Bool.false_eq_true, if_false]
      exact htail
    · have h3 : (r.id == inv2.id) = false := by
        simp only [beq_eq_false_iff_ne, ne_eq]
        exact hid
      simp only [h3, Bool.false_eq_true, if_false]
      by_cases hp : (r.holder_id == x) = true
      · simp only [hp, if_true, htail]
      · simp only [Bool.not_eq_true] at hp
        simp only [hp, Bool.false_eq_true, if_false, htail]

theorem filter_map_replace_eq (l : List InvoiceRow) (inv0 inv2 : InvoiceRow)
    (hid : inv2.id = inv0.id)
    (hself : (inv2.holder_id == inv2.holder_id) = true)
    (hflt : l.filter (fun i => i.holder_id == inv2.holder_id) = [inv0])
    (huniq : ∀ r ∈ l, r.id = inv0.id → r = inv0) :
    (l.map (fun r => if r.id == inv2.id then inv2 else r)).filter
        (fun i => i.holder_id == inv2.holder_id) = [inv2] := by
  induction l with
  | nil => simp at hflt
  | cons r rest ih =>
    simp only [List.filter_cons] at hflt
    simp only [List.map_cons, List.filter_cons]
    by_cases hpr : (r.holder_id == inv2.holder_id) = true
    · rw [if_pos hpr] at hflt
      have hr0 : r = inv0 := (List.cons.injEq _ _ _ _ ▸ hflt).1
      have hrest : rest.filter (fun i => i.holder_id == inv2.holder_id) = [] :=
        (List.cons.injEq _ _ _ _ ▸ hflt).2
      have hrid : (r.id == inv2.id) = true := by
        simp only [beq_iff_eq, hr0, hid]
      rw [if_pos hrid, if_pos hself]
      have hnone : ∀ q ∈ rest, q.id ≠ inv2.id := by
        intro q hq hqid
        have hq0 : q = inv0 := huniq q (List.mem_cons_of_mem _ hq) (hid ▸ hqid)
        have : (q.holder_id == inv2.holder_id) = true := by
          rw [hq0, ← hr0]
          exact hpr
        have hmem : q ∈ rest.filter (fun i => i.holder_id == inv2.holder_id) :=
          List.mem_filter.mpr ⟨hq, this⟩
        rw [hrest] at hmem
        simp at hmem
      rw [map_replace_same_id rest inv2 hnone, hrest]
    · simp only [Bool.not_eq_true] at hpr
      rw [hpr] at hflt
      simp only [Bool.false_eq_true, if_false] at hflt
      have hmem0 : inv0 ∈ rest.filter (fun i => i.holder_id == inv2.holder_id) := by
        rw [hflt]
        exact List.mem_cons_self _ _
      have hp0 : (inv0.holder_id == inv2.holder_id) = true := (List.mem_filter.mp hmem0).2
      have hrid : (r.id == inv2.id) = false := by
        simp only [beq_eq_false_iff_ne, ne_eq]
        intro hc
        have hr0 : r = inv0 := huniq r (List.mem_cons_self _ _) (hid ▸ hc)
        rw [← hr0] at hp0
        rw [hp0] at hpr
        cases hpr
      rw [hrid]
      simp only [Bool.false_eq_true, if_false]
      rw [hpr]
      simp only [Bool.false_eq_true, if_false]
      exact ih hflt (fun q hq hq2 => huniq q (List.mem_cons_of_mem _ hq) hq2)

theorem make_invoices_holder_ok (tag : String) (h : HolderFin) (s s' : BatchState)
    (hwf : StateWF s) (hok : make_invoices_holder tag h s = (s', none)) :
    s'.report_items = s.report_items ∧ s'.holders = s.holders ∧ StateWF s'
    ∧ (∀ x : ℕ, x ≠ h.id →
        s'.invoices.filter (fun i => i.holder_id == x)
          = s.invoices.filter (fun i => i.holder_id == x))
    ∧ (s.report_items.filter (fun r => r.holder_id == h.id) ≠ [] →
        ∃ inv, s'.invoices.filter (fun i => i.holder_id == h.id) = [inv]
          ∧ invoiceFieldSpec (s.report_items.filter (fun r => r.holder_id == h.id)) h inv) := by
  simp only [make_invoices_holder] at hok
  by_cases hitems : (s.report_items.filter (fun r => r.holder_id == h.id)).length > 0
  case neg =>
    rw [if_neg hitems] at hok
    simp only [Prod.mk.injEq] at hok
    obtain ⟨rfl, -⟩ := hok
    have hempty : s.report_items.filter (fun r => r.holder_id == h.id) = [] :=
      List.length_eq_zero.mp (Nat.eq_zero_of_not_pos hitems)
    exact ⟨rfl, rfl, hwf, fun x hx => rfl, fun hne => absurd hempty hne⟩
  case pos =>
    rw [if_pos hitems] at hok
    cases hflt : s.invoices.filter (fun inv => inv.holder_id == h.id) with
    | nil =>
      rw [hflt] at hok
      simp only at hok
      obtain ⟨inv2, hid2, hh2, htax2, hvc2, hvdc2, hinvs, hri, hho, hni, herr, hadv⟩ :=
        save_and_amortize_ok _ _ _ _ _ _ _ hok
      have hid2' : inv2.id = s.next_id := hid2
      have hh2' : inv2.holder_id = h.id := hh2
      have htax2' : inv2.tax_retention =
          roundTo 2 (((s.report_items.filter (fun r => r.holder_id == h.id)).map
            (fun r => r.value_holder_converted)).sum * h.tax_retention / 100) := htax2
      have hvc2' : inv2.value_converted =
          roundTo 2 (((s.report_items.filter (fun r => r.holder_id == h.id)).map
              (fun r => r.value_holder_converted)).sum
            - ((s.report_items.filter (fun r => r.holder_id == h.id)).map
              (fun r => r.value_holder_converted)).sum * h.tax_retention / 100) := hvc2
      have hvdc2' : inv2.value_distributor_converted =
          roundTo 2 ((s.report_items.filter (fun r => r.holder_id == h.id)).map
            (fun r => r.value_converted_distributor)).sum := hvdc2
      have hinvs' : s'.invoices = s.invoices ++ [inv2] := by
        rw [hinvs]
        simp
      have hri' : s'.report_items = s.report_items := hri
      have hho' : s'.holders = s.holders := hho
      have hni' : s'.next_id = s.next_id + 1 := hni
      refine ⟨hri', hho', ⟨?_, ?_⟩, ?_, ?_⟩
      · rw [hinvs', List.map_append]
        rw [List.nodup_append]
        refine ⟨hwf.1, by simp, ?_⟩
        intro a ha hb
        simp only [List.map_cons, List.map_nil, List.mem_singleton] at hb
        subst hb
        obtain ⟨i, hi, hieq⟩ := List.mem_map.mp ha
        have := hwf.2 i hi
        rw [hieq, hid2'] at this
        omega
      · intro i hi
        rw [hinvs'] at hi
        rw [hni']
        rcases List.mem_append.mp hi with hi | hi
        · have := hwf.2 i hi
          omega
        · simp only [List.mem_singleton] at hi
          subst hi
          rw [hid2']
          omega
      · intro x hx
        rw [hinvs', List.filter_append]
        have : [inv2].filter (fun i => i.holder_id == x) = [] := by
          simp only [List.filter_cons, List.filter_nil]
          rw [show (inv2.holder_id == x) = false from by
            simp only [beq_eq_false_iff_ne, ne_eq, hh2']
            exact fun hc => hx hc.symm]
          simp
        rw [this, List.append_nil]
      · intro hne
        refine ⟨inv2, ?_, hh2', htax2', hvc2', hvdc2'⟩
        rw [hinvs', List.filter_append, hflt]
        simp only [List.nil_append, List.filter_cons, List.filter_nil]
        rw [show (inv2.holder_id == h.id) = true from by simp [hh2']]
        simp
    | cons inv0 tl =>
      cases tl with
      | cons b tl2 =>
        rw [hflt] at hok
        simp at hok
      | nil =>
        rw [hflt] at hok
        simp only at hok
        obtain ⟨inv2, hid2, hh2, htax2, hvc2, hvdc2, hinvs, hri, hho, hni, herr, hadv⟩ :=
          save_and_amortize_ok _ _ _ _ _ _ _ hok
        have hid2' : inv2.id = inv0.id := hid2
        have hh2' : inv2.holder_id = h.id := hh2
        have htax2' : inv2.tax_retention =
            roundTo 2 (((s.report_items.filter (fun r => r.holder_id == h.id)).map
              (fun r => r.value_holder_converted)).sum * h.tax_retention / 100) := htax2
        have hvc2' : inv2.value_converted =
            roundTo 2 (((s.report_items.filter (fun r => r.holder_id == h.id)).map
                (fun r => r.value_holder_converted)).sum
              - ((s.report_items.filter (fun r => r.holder_id == h.id)).map
                (fun r => r.value_holder_converted)).sum * h.tax_retention / 100) := hvc2
        have hvdc2' : inv2.value_distributor_converted =
            roundTo 2 ((s.report_items.filter (fun r => r.holder_id == h.id)).map
              (fun r => r.value_converted_distributor)).sum := hvdc2
        have hinvs' : s'.invoices
            = s.invoices.map (fun r => if r.id == inv2.id then inv2 else r) := by
          rw [hinvs]
          simp
        have hri' : s'.report_items = s.report_items := hri
        have hho' : s'.holders = s.holders := hho
        have hni' : s'.next_id = s.next_id := hni
        have hinj := List.inj_on_of_nodup_map hwf.1
        have hmemflt : inv0 ∈ s.invoices.filter (fun inv => inv.holder_id == h.id) := by
          rw [hflt]
          exact List.mem_cons_self _ _
        have hmem0 : inv0 ∈ s.invoices := List.mem_of_mem_filter hmemflt
        have hpred0 : (inv0.holder_id == h.id) = true := (List.mem_filter.mp hmemflt).2
        have hpred0' : inv0.holder_id = h.id := by
          simpa only [beq_iff_eq] using hpred0
        have huniq : ∀ r ∈ s.invoices, r.id = inv0.id → r = inv0 := by
          intro r hr hrid
          exact hinj hr hmem0 hrid
        refine ⟨hri', hho', ⟨?_, ?_⟩, ?_, ?_⟩
        · rw [hinvs', map_replace_ids]
          exact hwf.1
        · intro i hi
          rw [hinvs'] at hi
          rw [hni']
          obtain ⟨r, hr, hre⟩ := List.mem_map.mp hi
          by_cases hc : r.id = inv2.id
          · rw [if_pos (by simp [hc])] at hre
            subst hre
            have := hwf.2 inv0 hmem0
            rw [hid2']
            omega
          · rw [if_neg (by simp [hc])] at hre
            subst hre
            exact hwf.2 r hr
        · intro x hx
          rw [hinvs']
          refine filter_map_replace_ne s.invoices inv2 x ?_ ?_
          · intro r hr hrid
            have hr0 : r = inv0 := huniq r hr (hid2' ▸ hrid)
            rw [hr0, hpred0', hh2']
          · rw [hh2']
            exact hx
        · intro hne
          refine ⟨inv2, ?_, hh2', htax2', hvc2', hvdc2'⟩
          rw [hinvs', show h.id = inv2.holder_id from hh2'.symm]
          refine filter_map_replace_eq s.invoices inv0 inv2 hid2' (by simp) ?_ huniq
          rw [hh2']
          exact hflt

theorem make_invoices_body_frame (tag : String) (hs : List HolderFin) (s' : BatchState)
    (x : ℕ) :
    ∀ s : BatchState, StateWF s → (∀ h ∈ hs, x ≠ h.id) →
      make_invoices_body tag hs s = (s', none) →
      s'.invoices.filter (fun i => i.holder_id == x)
        = s.invoices.filter (fun i => i.holder_id == x) := by
  induction hs with
  | nil =>
    intro s hwf hx hok
    simp only [make_invoices_body, Prod.mk.injEq] at hok
    obtain ⟨rfl, -⟩ := hok
    rfl
  | cons h rest ih =>
    intro s hwf hx hok
    simp only [make_invoices_body] at hok
    cases hh : make_invoices_holder tag h s with
    | mk s1 err =>
      rw [hh] at hok
      cases err with
      | some e => simp at hok
      | none =>
        simp only at hok
        obtain ⟨hri, hho, hwf1, hframe, hspec⟩ := make_invoices_holder_ok tag h s s1 hwf hh
        rw [ih s1 hwf1 (fun g hg => hx g (List.mem_cons_of_mem _ hg)) hok,
          hframe x (hx h (List.mem_cons_self _ _))]

theorem make_invoices_body_ok (tag : String) (hs : List HolderFin) (s' : BatchState) :
    ∀ s : BatchState, StateWF s → (hs.map (fun h => h.id)).Nodup →
      make_invoices_body tag hs s = (s', none) →
      s'.report_items = s.report_items
      ∧ ∀ h ∈ hs, s.report_items.filter (fun r => r.holder_id == h.id) ≠ [] →
          ∃ inv, s'.invoices.filter (fun i => i.holder_id == h.id) = [inv]
            ∧ invoiceFieldSpec (s.report_items.filter (fun r => r.holder_id == h.id)) h inv := by
  induction hs with
  | nil =>
    intro s hwf hnodup hok
    simp only [make_invoices_body, Prod.mk.injEq] at hok
    obtain ⟨rfl, -⟩ := hok
    exact ⟨rfl, by simp⟩
  | cons h rest ih =>
    intro s hwf hnodup hok
    simp only [make_invoices_body] at hok
    cases hh : make_invoices_holder tag h s with
    | mk s1 err =>
      rw [hh] at hok
      cases err with
      | some e => simp at hok
      | none =>
        simp only at hok
        obtain ⟨hri, hho, hwf1, hframe, hspec⟩ := make_invoices_holder_ok tag h s s1 hwf hh
        have hnotmem : h.id ∉ rest.map (fun g => g.id) := (List.nodup_cons.mp hnodup).1
        have hnodup_rest : (rest.map (fun g => g.id)).Nodup := (List.nodup_cons.mp hnodup).2
        obtain ⟨hri2, hspecs⟩ := ih s1 hwf1 hnodup_rest hok
        refine ⟨by rw [hri2, hri], ?_⟩
        intro g hg hne
        rcases List.mem_cons.mp hg with hgh | hgr
        · subst hgh
          obtain ⟨inv, hfi, hfs⟩ := hspec hne
          have hxne : ∀ p ∈ rest, g.id ≠ p.id := by
            intro p hp hc
            exact hnotmem (hc ▸ List.mem_map_of_mem (fun q => q.id) hp)
          have hfr := make_invoices_body_frame tag rest s' g.id s1 hwf1 hxne hok
          exact ⟨inv, by rw [hfr, hfi], hfs⟩
        · have hg1 := hspecs g hgr
          rw [hri] at hg1
          exact hg1 hne

/-- C2: `Batch.make_invoices` is a no-op unless the batch status is `PRS`
or `CL`.  When it runs: if the holder loop finishes without an exception,
every holder with report items in the batch ends with exactly one invoice
whose `tax_retention` is
`round(sum(value_holder_converted) * holder.tax_retention / 100, 2)`, whose
`value_converted` is `round(sum(value_holder_converted) - tax_retention, 2)`
(the subtracted tax retention being the pre-rounding value the loop
computes) and whose `value_distributor_converted` is
`round(sum(value_converted_distributor), 2)`, and the batch status ends as
`CL`; if the loop raises, the batch ends with status `PE` and errors set to
`Unknown error.`. -/
theorem make_invoices_spec (tag : String) (s : BatchState)
    (hwf : StateWF s) (hnodup : (s.holders.map (fun h => h.id)).Nodup) :
    (¬(s.status = "PRS" ∨ s.status = "CL") → make_invoices tag s = s)
    ∧ ((s.status = "PRS" ∨ s.status = "CL") →
      (∀ s2, make_invoices_body tag s.holders { s with status := "PI", errors := "" }
          = (s2, none) →
        (make_invoices tag s).status = "CL"
        ∧ ∀ h ∈ s.holders,
            s.report_items.filter (fun r => r.holder_id == h.id) ≠ [] →
            ∃ inv,
              (make_invoices tag s).invoices.filter (fun i => i.holder_id == h.id) = [inv]
              ∧ invoiceFieldSpec (s.report_items.filter (fun r => r.holder_id == h.id)) h inv)
      ∧ (∀ s2 e, make_invoices_body tag s.holders { s with status := "PI", errors := "" }
            = (s2, some e) →
          make_invoices tag s = { s2 with status := "PE", errors := "Unknown error." })) := by
  constructor
  · intro hst
    push_neg at hst
    have hb : (s.status == "PRS" || s.status == "CL") = false := by
      simp only [Bool.or_eq_false_iff, beq_eq_false_iff_ne, ne_eq]
      exact ⟨hst.1, hst.2⟩
    simp [make_invoices, hb]
  · intro hst
    have hb : (s.status == "PRS" || s.status == "CL") = true := by
      rcases hst with h | h <;> simp [h]
    constructor
    · intro s2 hbody
      have hmk : make_invoices tag s = { s2 with status := "CL" } := by
        simp only [make_invoices, hb, Bool.not_true, Bool.false_eq_true, if_false]
        rw [hbody]
      have hwf1 : StateWF { s with status := "PI", errors := "" } := hwf
      have hnodup1 :
          (({ s with status := "PI", errors := "" } : BatchState).holders.map
            (fun h => h.id)).Nodup := hnodup
      obtain ⟨hri, hspecs⟩ := make_invoices_body_ok tag s.holders s2
        { s with status := "PI", errors := "" } hwf1 hnodup hbody
      refine ⟨by rw [hmk], ?_⟩
      intro h hh hne
      have hs1 : ({ s with status := "PI", errors := "" } : BatchState).report_items
          = s.report_items := rfl
      rw [hs1] at hspecs
      obtain ⟨inv, hfi, hfs⟩ := hspecs h hh hne
      refine ⟨inv, ?_, hfs⟩
      rw [hmk]
      exact hfi
    · intro s2 e hbody
      simp only [make_invoices, hb, Bool.not_true, Bool.false_eq_true, if_false]
      rw [hbody]

/-- A sample batch state ready for invoicing: status `PRS`, one holder with
one report item, no pre-existing invoices, advances or amortizations. -/
def sampleBatch : BatchState :=
  { status := "PRS", errors := ""
    holders := [{ id := 1, tax_retention := 10, bank_data := "b", legal_document := "d"
                  legal_name := "n", share := 70, sales_commission := 0 }]
    report_items := [{ holder_id := 1, value_holder_converted := 100
                       value_converted_distributor := 20 }]
    invoices := [], advances := [], amortizations := []
    dispatched_invoice_files := [], next_id := 1 }

/-- Closed instance of `make_invoices_spec` on `sampleBatch`. -/
theorem make_invoices_spec_inst :
    (¬(sampleBatch.status = "PRS" ∨ sampleBatch.status = "CL") →
      make_invoices "ND" sampleBatch = sampleBatch)
    ∧ ((sampleBatch.status = "PRS" ∨ sampleBatch.status = "CL") →
      (∀ s2, make_invoices_body "ND" sampleBatch.holders
          { sampleBatch with status := "PI", errors := "" } = (s2, none) →
        (make_invoices "ND" sampleBatch).status = "CL"
        ∧ ∀ h ∈ sampleBatch.holders,
            sampleBatch.report_items.filter (fun r => r.holder_id == h.id) ≠ [] →
            ∃ inv,
              (make_invoices "ND" sampleBatch).invoices.filter
                (fun i => i.holder_id == h.id) = [inv]
              ∧ invoiceFieldSpec
                  (sampleBatch.report_items.filter (fun r => r.holder_id == h.id)) h inv)
      ∧ (∀ s2 e, make_invoices_body "ND" sampleBatch.holders
            { sampleBatch with status := "PI", errors := "" } = (s2, some e) →
          make_invoices "ND" sampleBatch
            = { s2 with status := "PE", errors := "Unknown error." })) :=
  make_invoices_spec "ND" sampleBatch (by constructor <;> simp [StateWF, sampleBatch])
    (by simp [sampleBatch])

/-! ## `Batch.distribute_batch` (financial models)

Reuses `calculate_values_to_distribute` and the `get_holder` embeddings.
`distribute_item` reads only `report.currency_price` and
`report.provider.share` from the report, passed explicitly. -/

/-- A `ReportTempItemAsset` row as `distribute_item` needs it. -/
structure RTIAsset where
  value : ℚ
  tax_retention : ℚ
  asset : Option CatalogEntry
  product : Option CatalogEntry
  deriving Repr, DecidableEq

/-- A `ReportTempItemYoutube` row as `distribute_item` needs it. -/
structure RTIYoutube where
  value : ℚ
  tax_retention : ℚ
  youtube_asset : Option CatalogEntry
  deriving Repr, DecidableEq

/-- The financial fields of a `ReportItem` row created by
`distribute_item`. -/
structure CreatedReportItem where
  holder_id : ℕ
  artist_id : Option ℕ
  holder_item_share : ℚ
  tax_retention : ℚ
  value_holder : ℚ
  value_holder_converted : ℚ
  rate_distributor : ℚ
  value_distributor : ℚ
  value_converted_distributor : ℚ
  transfer_dist_share : ℚ
  deriving Repr, DecidableEq

/-- The `report_stats` dict accumulated by `distribute_item` and summed by
the report loop. -/
structure ReportStats where
  gross_revenue_distributed : ℚ
  net_revenue_distributed : ℚ
  net_income_distributed : ℚ
  items_distributed : ℕ
  deriving Repr, DecidableEq

/-- The zero-initialised `report_stats`. -/
def zeroStats : ReportStats :=
  { gross_revenue_distributed := 0, net_revenue_distributed := 0
    net_income_distributed := 0, items_distributed := 0 }

/-- Componentwise accumulation of item stats into the report totals. -/
def addStats (a b : ReportStats) : ReportStats :=
  { gross_revenue_distributed := a.gross_revenue_distributed + b.gross_revenue_distributed
    net_revenue_distributed := a.net_revenue_distributed + b.net_revenue_distributed
    net_income_distributed := a.net_income_distributed + b.net_income_distributed
    items_distributed := a.items_distributed + b.items_distributed }

/-- The per-holder loop of `ReportTempItem.distribute_item`: creates one
`ReportItem` per holder entry and accumulates the item stats
(`value_total`, `value_total_to_distribute`, `value_distributor`, and one
distributed item per holder). -/
def distribute_item_holders (currency_price provider_share tax_retention value : ℚ) :
    List HolderEntry → List CreatedReportItem × ReportStats
  | [] => ([], zeroStats)
  | holder :: rest =>
    let value_to_dist := calculate_values_to_distribute value currency_price holder.share
      holder.item_share provider_share tax_retention holder.transfer_dist_share
    let item : CreatedReportItem :=
      { holder_id := holder.holder_id
        artist_id := holder.artist_id
        holder_item_share := value_to_dist.holder_item_share
        tax_retention := value_to_dist.tax_retention
        value_holder := value_to_dist.value_holder
        value_holder_converted := value_to_dist.value_holder_converted
        rate_distributor := value_to_dist.rate_distributor
        value_distributor := value_to_dist.value_distributor
        value_converted_distributor := value_to_dist.value_converted_distributor
        transfer_dist_share := value_to_dist.transfer_dist_share }
    let r := distribute_item_holders currency_price provider_share tax_retention value rest
    (item :: r.1,
     { gross_revenue_distributed := value_to_dist.value_total + r.2.gross_revenue_distributed
       net_revenue_distributed :=
         value_to_dist.value_total_to_distribute + r.2.net_revenue_distributed
       net_income_distributed := value_to_dist.value_distributor + r.2.net_income_distributed
       items_distributed := 1 + r.2.items_distributed })

/-- `distribute_item` on a `ReportTempItemAsset`: `get_holder` (which may
raise), then the per-holder loop. -/
def distribute_item_asset (currency_price provider_share : ℚ) (item : RTIAsset) :
    Except PyExc (List CreatedReportItem × ReportStats) :=
  match assetGetHolder item.asset item.product with
  | .error e => .error e
  | .ok holders =>
    .ok (distribute_item_holders currency_price provider_share item.tax_retention item.value
      holders)

/-- `distribute_item` on a `ReportTempItemYoutube`. -/
def distribute_item_youtube (currency_price provider_share : ℚ) (item : RTIYoutube) :
    Except PyExc (List CreatedReportItem × ReportStats) :=
  match youtubeGetHolder item.youtube_asset with
  | .error e => .error e
  | .ok holders =>
    .ok (distribute_item_holders currency_price provider_share item.tax_retention item.value
      holders)

/-- The asset-item pass of the report loop: each item is distributed and
then deleted; on an exception the not-yet-processed items (the failing one
included) remain.  Returns the remaining items, the report items created,
the accumulated stats, and the exception if any. -/
def distributeAssetItems (currency_price provider_share : ℚ) :
    List RTIAsset → List RTIAsset × List CreatedReportItem × ReportStats × Option PyExc
  | [] => ([], [], zeroStats, none)
  | item :: rest =>
    match distribute_item_asset currency_price provider_share item with
    | .error e => (item :: rest, [], zeroStats, some e)
    | .ok (created, st) =>
      let r := distributeAssetItems currency_price provider_share rest
      (r.1, created ++ r.2.1, addStats st r.2.2.1, r.2.2.2)

/-- The youtube-item pass of the report loop. -/
def distributeYoutubeItems (currency_price provider_share : ℚ) :
    List RTIYoutube → List RTIYoutube × List CreatedReportItem × ReportStats × Option PyExc
  | [] => ([], [], zeroStats, none)
  | item :: rest =>
    match distribute_item_youtube currency_price provider_share item with
    | .error e => (item :: rest, [], zeroStats, some e)
    | .ok (created, st) =>
      let r := distributeYoutubeItems currency_price provider_share rest
      (r.1, created ++ r.2.1, addStats st r.2.2.1, r.2.2.2)

/-- A financial `Report` row with its temp-item sets, as
`distribute_batch` sees it.  `provider_share` is `report.provider.share`. -/
structure ReportRec where
  currency_price : ℚ
  provider_share : ℚ
  gross_revenue_distributed : ℚ
  net_revenue_distributed : ℚ
  net_income_distributed : ℚ
  items_distributed : ℕ
  status_distribution : String
  asset_items : List RTIAsset
  youtube_items : List RTIYoutube
  deriving Repr, DecidableEq

/-- The body of the report loop of `distribute_batch`: mark the report
processing, distribute and delete the asset items then the youtube items,
and on success store the accumulated totals with distribution status
`SUC`.  On an exception the report keeps its old totals and the `PRO`
status, with the already-processed items deleted. -/
def distribute_report (rep : ReportRec) :
    ReportRec × List CreatedReportItem × Option PyExc :=
  let rep := { rep with status_distribution := "PRO" }
  match distributeAssetItems rep.currency_price rep.provider_share rep.asset_items with
  | (remainingA, createdA, _, some e) =>
    ({ rep with asset_items := remainingA }, createdA, some e)
  | (remainingA, createdA, stA, none) =>
    match distributeYoutubeItems rep.currency_price rep.provider_share rep.youtube_items with
    | (remainingY, createdY, _, some e) =>
      ({ rep with asset_items := remainingA, youtube_items := remainingY },
        createdA ++ createdY, some e)
    | (remainingY, createdY, stY, none) =>
      ({ rep with
          asset_items := remainingA
          youtube_items := remainingY
          gross_revenue_distributed :=
            stA.gross_revenue_distributed + stY.gross_revenue_distributed
          net_revenue_distributed :=
            stA.net_revenue_distributed + stY.net_revenue_distributed
          net_income_distributed :=
            stA.net_income_distributed + stY.net_income_distributed
          items_distributed := stA.items_distributed + stY.items_distributed
          status_distribution := "SUC" },
        createdA ++ createdY, none)

/-- The `for report in reports` loop, stopping at the first exception with
the partially-updated report list. -/
def distribute_reports :
    List ReportRec → List ReportRec × List CreatedReportItem × Option PyExc
  | [] => ([], [], none)
  | rep :: rest =>
    match distribute_report rep with
    | (rep1, created, some e) => (rep1 :: rest, created, some e)
    | (rep1, created, none) =>
      let r := distribute_reports rest
      (rep1 :: r.1, created ++ r.2.1, r.2.2)

/-- The state `Batch.distribute_batch` reads and writes; the telegram
notification fired at the end is recorded as a message tagged with the
financeiro chat and the final batch status. -/
structure DistState where
  status : String
  errors : String
  reports : List ReportRec
  created_items : List CreatedReportItem
  telegram_messages : List String
  deriving Repr, DecidableEq

/-- `Batch.distribute_batch`: does nothing unless the batch status is
`OP`; otherwise sets status `PR`, clears errors, runs the report loop, and
ends with status `PRS` on success or `PE` with errors `Unknown error.` on
an exception, then notifies the financeiro telegram chat either way. -/
def distribute_batch (s : DistState) : DistState :=
  if s.status == "OP" then
    let s1 := { s with status := "PR", errors := "" }
    let r := distribute_reports s1.reports
    let s2 :=
      match r.2.2 with
      | none =>
        { s1 with reports := r.1, created_items := s1.created_items ++ r.2.1
                  status := "PRS" }
      | some _ =>
        { s1 with reports := r.1, created_items := s1.created_items ++ r.2.1
                  status := "PE", errors := "Unknown error." }
    { s2 with telegram_messages := s2.telegram_messages ++ ["financeiro:" ++ s2.status] }
  else s

/-- The stats one asset temp item contributes to its report (zero when
`get_holder` raises). -/
def assetItemStats (cp ps : ℚ) (it : RTIAsset) : ReportStats :=
  match distribute_item_asset cp ps it with
  | .ok p => p.2
  | .error _ => zeroStats

/-- The stats one youtube temp item contributes to its report. -/
def ytItemStats (cp ps : ℚ) (it : RTIYoutube) : ReportStats :=
  match distribute_item_youtube cp ps it with
  | .ok p => p.2
  | .error _ => zeroStats

theorem distributeAssetItems_ok (cp ps : ℚ) (items : List RTIAsset) :
    ∀ rem created st, distributeAssetItems cp ps items = (rem, created, st, none) →
      rem = []
      ∧ (∀ it ∈ items, ∃ p, distribute_item_asset cp ps it = .ok p)
      ∧ st.gross_revenue_distributed
        = (items.map (fun it => (assetItemStats cp ps it).gross_revenue_distributed)).sum
      ∧ st.net_revenue_distributed
        = (items.map (fun it => (assetItemStats cp ps it).net_revenue_distributed)).sum
      ∧ st.net_income_distributed
        = (items.map (fun it => (assetItemStats cp ps it).net_income_distributed)).sum
      ∧ st.items_distributed
        = (items.map (fun it => (assetItemStats cp ps it).items_distributed)).sum := by
  induction items with
  | nil =>
    intro rem created st hok
    simp only [distributeAssetItems, Prod.mk.injEq] at hok
    obtain ⟨h1, h2, h3, -⟩ := hok
    subst h1
    subst h3
    simp [zeroStats]
  | cons item rest ih =>
    intro rem created st hok
    simp only [distributeAssetItems] at hok
    cases hcur : distribute_item_asset cp ps item with
    | error e =>
      rw [hcur] at hok
      simp at hok
    | ok p =>
      rw [hcur] at hok
      cases p with
      | mk c stI =>
        simp only [Prod.mk.injEq] at hok
        obtain ⟨h1, h2, h3, h4⟩ := hok
        have hrest : distributeAssetItems cp ps rest
            = ((distributeAssetItems cp ps rest).1, (distributeAssetItems cp ps rest).2.1,
              (distributeAssetItems cp ps rest).2.2.1, none) := by
          rw [← h4]
        obtain ⟨hr1, hr2, hg, hn, hi, hc⟩ := ih _ _ _ hrest
        subst h1
        subst h3
        have hhead : assetItemStats cp ps item = stI := by
          simp [assetItemStats, hcur]
        refine ⟨hr1, ?_, ?_, ?_, ?_, ?_⟩
        · intro it hit
          rcases List.mem_cons.mp hit with hhh | hhh
          · subst hhh
            exact ⟨(c, stI), hcur⟩
          · exact hr2 it hhh
        · simp [addStats, List.map_cons, hhead, hg]
        · simp [addStats, List.map_cons, hhead, hn]
        · simp [addStats, List.map_cons, hhead, hi]
        · simp [addStats, List.map_cons, hhead, hc]

theorem distributeYoutubeItems_ok (cp ps : ℚ) (items : List RTIYoutube) :
    ∀ rem created st, distributeYoutubeItems cp ps items = (rem, created, st, none) →
      rem = []
      ∧ (∀ it ∈ items, ∃ p, distribute_item_youtube cp ps it = .ok p)
      ∧ st.gross_revenue_distributed
        = (items.map (fun it => (ytItemStats cp ps it).gross_revenue_distributed)).sum
      ∧ st.net_revenue_distributed
        = (items.map (fun it => (ytItemStats cp ps it).net_revenue_distributed)).sum
      ∧ st.net_income_distributed
        = (items.map (fun it => (ytItemStats cp ps it).net_income_distributed)).sum
      ∧ st.items_distributed
        = (items.map (fun it => (ytItemStats cp ps it).items_distributed)).sum := by
  induction items with
  | nil =>
    intro rem created st hok
    simp only [distributeYoutubeItems, Prod.mk.injEq] at hok
    obtain ⟨h1, h2, h3, -⟩ := hok
    subst h1
    subst h3
    simp [zeroStats]
  | cons item rest ih =>
    intro rem created st hok
    simp only [distributeYoutubeItems] at hok
    cases hcur : distribute_item_youtube cp ps item with
    | error e =>
      rw [hcur] at hok
      simp at hok
    | ok p =>
      rw [hcur] at hok
      cases p with
      | mk c stI =>
        simp only [Prod.mk.injEq] at hok
        obtain ⟨h1, h2, h3, h4⟩ := hok
        have hrest : distributeYoutubeItems cp ps rest
            = ((distributeYoutubeItems cp ps rest).1, (distributeYoutubeItems cp ps rest).2.1,
              (distributeYoutubeItems cp ps rest).2.2.1, none) := by
          rw [← h4]
        obtain ⟨hr1, hr2, hg, hn, hi, hc⟩ := ih _ _ _ hrest
        subst h1
        subst h3
        have hhead : ytItemStats cp ps item = stI := by
          simp [ytItemStats, hcur]
        refine ⟨hr1, ?_, ?_, ?_, ?_, ?_⟩
        · intro it hit
          rcases List.mem_cons.mp hit with hhh | hhh
          · subst hhh
            exact ⟨(c, stI), hcur⟩
          · exact hr2 it hhh
        · simp [addStats, List.map_cons, hhead, hg]
        · simp [addStats, List.map_cons, hhead, hn]
        · simp [addStats, List.map_cons, hhead, hi]
        · simp [addStats, List.map_cons, hhead, hc]

/-- The postcondition of a successful `distribute_report` run: both item
sets distributed and deleted, distribution status `SUC`, and the four
totals equal to the sums of the per-item stats. -/
def reportDistributed (rep rep' : ReportRec) : Prop :=
  rep'.asset_items = [] ∧ rep'.youtube_items = []
  ∧ rep'.status_distribution = "SUC"
  ∧ (∀ it ∈ rep.asset_items, ∃ p,
      distribute_item_asset rep.currency_price rep.provider_share it = .ok p)
  ∧ (∀ it ∈ rep.youtube_items, ∃ p,
      distribute_item_youtube rep.currency_price rep.provider_share it = .ok p)
  ∧ rep'.gross_revenue_distributed
    = (rep.asset_items.map (fun it =>
        (assetItemStats rep.currency_price rep.provider_share it).gross_revenue_distributed)).sum
      + (rep.youtube_items.map (fun it =>
        (ytItemStats rep.currency_price rep.provider_share it).gross_revenue_distributed)).sum
  ∧ rep'.net_revenue_distributed
    = (rep.asset_items.map (fun it =>
        (assetItemStats rep.currency_price rep.provider_share it).net_revenue_distributed)).sum
      + (rep.youtube_items.map (fun it =>
        (ytItemStats rep.currency_price rep.provider_share it).net_revenue_distributed)).sum
  ∧ rep'.net_income_distributed
    = (rep.asset_items.map (fun it =>
        (assetItemStats rep.currency_price rep.provider_share it).net_income_distributed)).sum
      + (rep.youtube_items.map (fun it =>
        (ytItemStats rep.currency_price rep.provider_share it).net_income_distributed)).sum
  ∧ rep'.items_distributed
    = (rep.asset_items.map (fun it =>
        (assetItemStats rep.currency_price rep.provider_share it).items_distributed)).sum
      + (rep.youtube_items.map (fun it =>
        (ytItemStats rep.currency_price rep.provider_share it).items_distributed)).sum

theorem distribute_report_ok (rep rep' : ReportRec) (created : List CreatedReportItem)
    (hok : distribute_report rep = (rep', created, none)) : reportDistributed rep rep' := by
  simp only [distribute_report] at hok
  cases hA : distributeAssetItems rep.currency_price rep.provider_share rep.asset_items with
  | mk remA pA =>
    rw [hA] at hok
    cases pA with
    | mk createdA pA2 =>
      cases pA2 with
      | mk stA errA =>
        cases errA with
        | some e => simp at hok
        | none =>
          obtain ⟨ha1, ha2, hag, han, hai, hac⟩ :=
            distributeAssetItems_ok rep.currency_price rep.provider_share rep.asset_items
              remA createdA stA hA
          cases hY : distributeYoutubeItems rep.currency_price rep.provider_share
              rep.youtube_items with
          | mk remY pY =>
            rw [hY] at hok
            cases pY with
            | mk createdY pY2 =>
              cases pY2 with
              | mk stY errY =>
                cases errY with
                | some e => simp at hok
                | none =>
                  obtain ⟨hy1, hy2, hyg, hyn, hyi, hyc⟩ :=
                    distributeYoutubeItems_ok rep.currency_price rep.provider_share
                      rep.youtube_items remY createdY stY hY
                  simp only [Prod.mk.injEq] at hok
                  obtain ⟨hrep, -⟩ := hok
                  subst hrep
                  exact ⟨ha1, hy1, rfl, ha2, hy2,
                    by rw [hag, hyg], by rw [han, hyn], by rw [hai, hyi], by rw [hac, hyc]⟩

theorem distribute_reports_ok (l : List ReportRec) :
    ∀ reps created, distribute_reports l = (reps, created, none) →
      reps.length = l.length
      ∧ ∀ (i : ℕ) (rep : ReportRec), l[i]? = some rep →
          ∃ rep' c, reps[i]? = some rep' ∧ distribute_report rep = (rep', c, none) := by
  induction l with
  | nil =>
    intro reps created hok
    simp only [distribute_reports, Prod.mk.injEq] at hok
    obtain ⟨h1, -⟩ := hok
    subst h1
    exact ⟨rfl, by simp⟩
  | cons rep rest ih =>
    intro reps created hok
    simp only [distribute_reports] at hok
    cases hr : distribute_report rep with
    | mk rep1 pr =>
      cases pr with
      | mk c err =>
        cases err with
        | some e =>
          rw [hr] at hok
          simp at hok
        | none =>
          rw [hr] at hok
          simp only [Prod.mk.injEq] at hok
          obtain ⟨h1, h2, h3⟩ := hok
          have hrest : distribute_reports rest
              = ((distribute_reports rest).1, (distribute_reports rest).2.1, none) := by
            rw [← h3]
          obtain ⟨hlen, hpos⟩ := ih _ _ hrest
          subst h1
          refine ⟨by simp [hlen], ?_⟩
          intro i r hi
          match i with
          | 0 =>
            simp only [List.getElem?_cons_zero, Option.some.injEq] at hi
            subst hi
            exact ⟨rep1, c, by simp, hr⟩
          | i + 1 =>
            simp only [List.getElem?_cons_succ] at hi ⊢
            exact hpos i r hi

/-- C3: `Batch.distribute_batch` changes nothing unless the batch status is
`OP`.  When it runs: if the report loop finishes without an exception,
every `ReportTempItemAsset` and `ReportTempItemYoutube` of every report of
the batch was distributed and deleted, each report stores the accumulated
gross revenue, net revenue, net income and item count with
`status_distribution` set to `SUC`, and the batch ends with status `PRS`;
on an exception the batch ends with status `PE` and errors set to
`Unknown error.`. -/
theorem distribute_batch_spec (s : DistState) :
    (s.status ≠ "OP" → distribute_batch s = s)
    ∧ (s.status = "OP" →
      (∀ reps created, distribute_reports s.reports = (reps, created, none) →
        (distribute_batch s).status = "PRS"
        ∧ (distribute_batch s).reports.length = s.reports.length
        ∧ ∀ (i : ℕ) (rep : ReportRec), s.reports[i]? = some rep →
            ∃ rep', (distribute_batch s).reports[i]? = some rep'
              ∧ reportDistributed rep rep')
      ∧ (∀ reps created e, distribute_reports s.reports = (reps, created, some e) →
          (distribute_batch s).status = "PE"
          ∧ (distribute_batch s).errors = "Unknown error.")) := by
  constructor
  · intro hst
    have hb : (s.status == "OP") = false := by
      simp only [beq_eq_false_iff_ne, ne_eq]
      exact hst
    simp [distribute_batch, hb]
  · intro hst
    have hb : (s.status == "OP") = true := by simp [hst]
    constructor
    · intro reps created hok
      have hred : distribute_batch s
          = { s with
              reports := reps,
              created_items := s.created_items ++ created,
              status := "PRS",
              errors := "",
              telegram_messages := s.telegram_messages ++ ["financeiro:" ++ "PRS"] } := by
        simp only [distribute_batch, hb, if_true]
        rw [hok]
      obtain ⟨hlen, hpos⟩ := distribute_reports_ok s.reports reps created hok
      refine ⟨by rw [hred], by rw [hred]; exact hlen, ?_⟩
      intro i rep hi
      obtain ⟨rep', c, hge, hdr⟩ := hpos i rep hi
      refine ⟨rep', ?_, distribute_report_ok rep rep' c hdr⟩
      rw [hred]
      exact hge
    · intro reps created e hok
      have hred : distribute_batch s
          = { s with
              reports := reps,
              created_items := s.created_items ++ created,
              status := "PE",
              errors := "Unknown error.",
              telegram_messages := s.telegram_messages ++ ["financeiro:" ++ "PE"] } := by
        simp only [distribute_batch, hb, if_true]
        rw [hok]
      rw [hred]
      exact ⟨rfl, rfl⟩

/-- A sample distributable batch: status `OP` with one report holding one
asset temp item whose asset has a valid main holder. -/
def sampleDistBatch : DistState :=
  { status := "OP", errors := ""
    reports := [{ currency_price := 1, provider_share := 10
                  gross_revenue_distributed := 0, net_revenue_distributed := 0
                  net_income_distributed := 0, items_distributed := 0
                  status_distribution := "PEN"
                  asset_items := [{ value := 100, tax_retention := 0
                                    asset := some
                                      { main_holder := { id := 1, share := 70, share_youtube := 60 }
                                        holder_set := [] }
                                    product := none }]
                  youtube_items := [] }]
    created_items := [], telegram_messages := [] }

/-- Closed instance of `distribute_batch_spec` on `sampleDistBatch`. -/
theorem distribute_batch_spec_inst :
    (sampleDistBatch.status ≠ "OP" → distribute_batch sampleDistBatch = sampleDistBatch)
    ∧ (sampleDistBatch.status = "OP" →
      (∀ reps created, distribute_reports sampleDistBatch.reports = (reps, created, none) →
        (distribute_batch sampleDistBatch).status = "PRS"
        ∧ (distribute_batch sampleDistBatch).reports.length = sampleDistBatch.reports.length
        ∧ ∀ (i : ℕ) (rep : ReportRec), sampleDistBatch.reports[i]? = some rep →
            ∃ rep', (distribute_batch sampleDistBatch).reports[i]? = some rep'
              ∧ reportDistributed rep rep')
      ∧ (∀ reps created e,
          distribute_reports sampleDistBatch.reports = (reps, created, some e) →
          (distribute_batch sampleDistBatch).status = "PE"
          ∧ (distribute_batch sampleDistBatch).errors = "Unknown error.")) :=
  distribute_batch_spec sampleDistBatch

end AppOni
